import Mathlib

/-!
log4c_appender_ipc: a shallow embedding of `log4c_appender_ipc.c`

The appender lets several processes log into one file.  Every process pushes
its rendered messages into a POSIX message queue; one process (the "master")
also drains the queue into a stream appender from a background thread.  A
ping/pong handshake over a second queue tells a starting process whether a
master is alive, and a named semaphore guards the start-up section.

Modelling conventions

* A C `char` buffer is a `List Nat` of byte values.  A C string is read up to
  its first `0` byte; the end of the list also ends the string.
* Every library or system call the code makes is recorded, in program order,
  as an `Event` carrying the arguments and (where the code looks at it) the
  value the call returned.  The values returned by the environment are inputs
  of the embedded functions (`HandshakeEnv`, `OpenEnv`, `PumpStep`).
* `mqd_t` is an `Int`; `-1` is the failure value of `mq_open`.
* The `INFO_LOG` / `ERROR_LOG` diagnostics written to `stderr` are left out.
-/

namespace Log4cIpc

/-! ## Constants (`log4c_appender_ipc.c`, lines 20-32) -/

/-- Bytes of a string literal (without the terminating NUL). -/
def bytesOf (s : String) : List Nat := s.toList.map Char.toNat

def PING_PONG_TIMEOUT_S : Nat := 1
def THREAD_SLACKNESS_MS : Nat := 100
def SEM_GUARD_TIMEOUT_S : Nat := 4
def MAX_MSG_SIZE : Nat := 1024

def GUARD_SUFFIX : String := "guard"

def PING_MESSAGE : List Nat :=
  bytesOf "ASJ#HAP@WSOEI&FUH3%WR098UW3F$A38SR!FUG[I%DPHWO=ISHD1GO5D|7FO9IS454HF[A254HFY[8WEA"

def PONG_MESSAGE : List Nat :=
  bytesOf "ZvgPJ18ggAeqcb3DwZ3LU4Yu0LNciWpDXqgijAGp3S07F82C9Zgfss0CgYEVsXOHG40O2037ih2U8y9Vg"

def NUM_OF_NAME_TOKENS : Nat := 4

/-! ## C strings -/

/-- Content of the C string stored at the start of a buffer: the bytes before
the first NUL. -/
def cstr : List Nat → List Nat
  | [] => []
  | b :: rest => if b = 0 then [] else b :: cstr rest

/-- Model of `strlen`. -/
def strlen (buf : List Nat) : Nat := (cstr buf).length

/-- Model of `strcmp`: walks both strings, stops at the first difference or at
a common NUL; the result is the difference of the two bytes compared last. -/
def strcmp : List Nat → List Nat → Int
  | [], [] => 0
  | [], b :: _ => 0 - (b : Int)
  | a :: _, [] => (a : Int)
  | a :: as, b :: bs =>
    if a = b then (if a = 0 then 0 else strcmp as bs) else (a : Int) - (b : Int)

/-- Effect of a receive call that stores `payload` at the start of `buf`. -/
def storeMsg (buf payload : List Nat) : List Nat :=
  payload ++ buf.drop payload.length

/-- Effect of `buffer[bytes_read] = 0`. -/
def terminate (buf : List Nat) (bytes_read : Nat) : List Nat :=
  buf.set bytes_read 0

/-! ## System interface -/

/-- Values of `errno` the code distinguishes or that the calls it makes can
report. -/
inductive Errno where
  | EAGAIN
  | ETIMEDOUT
  | EMSGSIZE
  | EBADF
  | EINTR
  | EINVAL
  | other (code : Nat)
  deriving DecidableEq, Repr

/-- The two flag combinations the code passes to `mq_open`. -/
inductive OFlag where
  | O_WRONLY
  | O_CREAT_O_RDONLY
  deriving DecidableEq, Repr

/-- The fields of `struct mq_attr` the code fills in before `mq_open`.
`mq_flags_O_NONBLOCK` says whether the `O_NONBLOCK` bit is set in `mq_flags`. -/
structure mq_attr where
  mq_flags_O_NONBLOCK : Bool
  mq_maxmsg : Nat
  mq_msgsize : Nat
  mq_curmsgs : Nat
  deriving DecidableEq, Repr

/-- A `sem_t*` value. -/
inductive SemPtr where
  | null
  | SEM_FAILED
  | ptr (addr : Nat)
  deriving DecidableEq, Repr

/-- One call into the C library or into log4c, with the result the code saw. -/
inductive Event where
  | sem_open (name : String) (value : Nat) (ret : SemPtr)
  | sem_timedwait (sem : SemPtr) (timeout_s : Nat) (ret : Int)
  | sem_post (sem : SemPtr)
  | sem_close (sem : SemPtr)
  | sem_unlink (name : String)
  | mq_open (name : String) (oflag : OFlag) (attr : Option mq_attr) (ret : Int)
  | mq_unlink (name : String)
  | mq_close (mqd : Int)
  | mq_timedsend (mqd : Int) (msg : List Nat) (timeout_s : Nat) (ret : Int)
      (errno : Option Errno)
  | mq_timedreceive (mqd : Int) (msg_len : Nat) (timeout_s : Nat) (ret : Int)
  | mq_send (mqd : Int) (msg : List Nat) (ret : Int)
  | mq_receive (mqd : Int) (msg_len : Nat) (ret : Int)
  | log4c_category_log (category : String) (record : List Nat)
  | fopen (path : String)
  | pthread_create (ret : Int)
  | log4c_appender_set_udata
  | usleep (us : Nat)
  | log4c_appender_close (appender : Option String)
  deriving DecidableEq, Repr

/-- Model of `struct __appender_ipc_udata` (lines 44-53).  The two log4c
pointers are represented by the name the object was looked up with. -/
structure appender_ipc_udata_t where
  pumpThread : Nat
  mqueueServer : Int
  mqueueClient : Int
  rollingFileCategory : Option String
  rollingFileAppender : Option String
  queueName : String
  queueNameHandShake : String
  deriving DecidableEq, Repr

/-- Model of `appender_ipc_make_udata` (lines 537-543): `calloc` zeroes every
field. -/
def appender_ipc_make_udata : appender_ipc_udata_t :=
  { pumpThread := 0, mqueueServer := 0, mqueueClient := 0,
    rollingFileCategory := none, rollingFileAppender := none,
    queueName := "", queueNameHandShake := "" }

/-! ## The drain thread: `pump_from_queue_to_file` (lines 211-269) -/

/-- What the environment answers during one iteration of the drain loop.
`recv` is the outcome of `mq_receive`: `some payload` when a message was
received, `none` when the call returned `-1`.  `openHshake` and `sendPong`
are the values returned by `mq_open` and `mq_send` in the reply branch; they
are consulted only when that branch runs. -/
structure PumpStep where
  recv : Option (List Nat)
  openHshake : Int
  sendPong : Int
  deriving DecidableEq, Repr

/-- Result of running the drain loop against a finite list of answers:
the calls made, whether the function returned (it does so only after a failed
receive; otherwise it is still blocked in `mq_receive`), and the buffer. -/
structure PumpResult where
  trace : List Event
  returned : Bool
  buffer : List Nat
  deriving DecidableEq, Repr

/-- Body of the reply branch (lines 242-257). -/
def pumpReply (pUserData : appender_ipc_udata_t) (s : PumpStep) : List Event :=
  let mqid_resp := s.openHshake
  [Event.mq_open pUserData.queueNameHandShake OFlag.O_WRONLY none mqid_resp]
    ++ (if mqid_resp = -1 then []
        else [Event.mq_send mqid_resp (PONG_MESSAGE.take (strlen PONG_MESSAGE)) s.sendPong])
    ++ [Event.mq_close mqid_resp]

/-- Model of `pump_from_queue_to_file`: one list element per iteration of
`while(1)`. -/
def pump_from_queue_to_file (pUserData : appender_ipc_udata_t) :
    List Nat → List PumpStep → PumpResult
  | buffer, [] => { trace := [], returned := false, buffer := buffer }
  | buffer, s :: rest =>
    match s.recv with
    | none =>
      { trace := [Event.mq_receive pUserData.mqueueServer MAX_MSG_SIZE (-1)],
        returned := true, buffer := buffer }
    | some payload =>
      let bytes_read := payload.length
      let buffer1 := terminate (storeMsg buffer payload) bytes_read
      let here :=
        Event.mq_receive pUserData.mqueueServer MAX_MSG_SIZE bytes_read ::
          (if strcmp PING_MESSAGE buffer1 ≠ 0 then
            [Event.log4c_category_log
              (pUserData.rollingFileCategory.getD "") (cstr buffer1)]
           else pumpReply pUserData s)
      let r := pump_from_queue_to_file pUserData buffer1 rest
      { r with trace := here ++ r.trace }

/-- Records handed to the sink, in order. -/
def forwarded : List Event → List (List Nat)
  | [] => []
  | Event.log4c_category_log _ record :: rest => record :: forwarded rest
  | _ :: rest => forwarded rest

/-- Payloads received before the first failed receive. -/
def receivedBeforeFailure : List PumpStep → List (List Nat)
  | [] => []
  | s :: rest =>
    match s.recv with
    | none => []
    | some payload => payload :: receivedBeforeFailure rest

/-! ## The liveness probe: `master_handshake` (lines 100-204) -/

/-- What the environment answers during one run of `master_handshake`.
`openShared` and `openHshake` are the values returned by the two `mq_open`
calls.  `sendPing` is the outcome of `mq_timedsend`: `none` when it returned
`0`, `some e` when it returned `-1` with `errno = e`.  `recvPong` is the
outcome of `mq_timedreceive`: `some payload` when a message arrived, `none`
when it returned `-1`.  `buffer` is the initial content of the local array. -/
structure HandshakeEnv where
  openShared : Int
  openHshake : Int
  sendPing : Option Errno
  recvPong : Option (List Nat)
  buffer : List Nat
  deriving DecidableEq, Repr

/-- Lines 106-110: `attr` of the first `mq_open`. -/
def handshakeAttr : mq_attr :=
  { mq_flags_O_NONBLOCK := true, mq_maxmsg := 10, mq_msgsize := MAX_MSG_SIZE, mq_curmsgs := 0 }

/-- Lines 123-127 and 367-371: `attr` of the creating `mq_open` calls. -/
def createAttr : mq_attr :=
  { mq_flags_O_NONBLOCK := false, mq_maxmsg := 10, mq_msgsize := MAX_MSG_SIZE, mq_curmsgs := 0 }

/-- Lines 141-191: the exchange once both descriptors are open.  Returns the
new value of `result` and the calls made. -/
def pingPong (mqid mqid_resp : Int) (env : HandshakeEnv) : Int × List Event :=
  let ping := PING_MESSAGE.take (strlen PING_MESSAGE)
  match env.sendPing with
  | some errno =>
    (if errno ≠ Errno.EAGAIN then -1 else 0,
     [Event.mq_timedsend mqid ping PING_PONG_TIMEOUT_S (-1) (some errno)])
  | none =>
    match env.recvPong with
    | some payload =>
      let bytes_read := payload.length
      let buffer := terminate (storeMsg env.buffer payload) bytes_read
      (if strcmp buffer PONG_MESSAGE ≠ 0 then -1 else 1,
       [Event.mq_timedsend mqid ping PING_PONG_TIMEOUT_S 0 none,
        Event.mq_timedreceive mqid_resp MAX_MSG_SIZE PING_PONG_TIMEOUT_S bytes_read])
    | none =>
      (0,
       [Event.mq_timedsend mqid ping PING_PONG_TIMEOUT_S 0 none,
        Event.mq_timedreceive mqid_resp MAX_MSG_SIZE PING_PONG_TIMEOUT_S (-1)])

/-- Lines 112-193: everything before the clean-up.  Returns `result`,
`mqid_resp` and the calls made. -/
def handshakeBody (pUserData : appender_ipc_udata_t) (env : HandshakeEnv) :
    Int × Int × List Event :=
  let mqid := env.openShared
  let opened := [Event.mq_open pUserData.queueName OFlag.O_WRONLY (some handshakeAttr) mqid]
  if mqid ≠ -1 then
    let mqid_resp := env.openHshake
    let created :=
      [Event.mq_unlink pUserData.queueNameHandShake,
       Event.mq_open pUserData.queueNameHandShake OFlag.O_CREAT_O_RDONLY (some createAttr)
         mqid_resp]
    if mqid_resp = -1 then (-1, mqid_resp, opened ++ created)
    else
      let r := pingPong mqid mqid_resp env
      (r.1, mqid_resp, opened ++ created ++ r.2)
  else (0, 0, opened)

/-- Model of `master_handshake`: the value returned and the calls made. -/
def master_handshake (pUserData : appender_ipc_udata_t) (env : HandshakeEnv) :
    Int × List Event :=
  let body := handshakeBody pUserData env
  (body.1,
   body.2.2 ++
     [Event.mq_close env.openShared, Event.mq_close body.2.1,
      Event.mq_unlink pUserData.queueNameHandShake])

/-! ## Start-up: `appender_ipc_open` (lines 276-487) -/

/-- Name built by `open_semaphore` and `close_semaphore` with
`sprintf(sem_name, "/%s_%s", base_name, suffix)`.  The C code writes it into
`char sem_name[256]` without a length check; the model describes the calls for
names that fit that array (`OpenEnv.semNameFits`). -/
def semName (base_name suffix : String) : String := "/" ++ base_name ++ "_" ++ suffix

/-- Model of `open_semaphore` (lines 68-76); `sema` is the value `sem_open`
returns, which the function hands back to its caller. -/
def open_semaphore (base_name suffix : String) (init_val : Nat) (sema : SemPtr) : List Event :=
  [Event.sem_open (semName base_name suffix) init_val sema]

/-- Model of `close_semaphore` (lines 84-91). -/
def close_semaphore (sem : SemPtr) (base_name suffix : String) : List Event :=
  [Event.sem_close sem, Event.sem_unlink (semName base_name suffix)]

/-- What the environment answers during one attempt to take the guard:
the value returned by `sem_open` (through `open_semaphore`) and the value
returned by `sem_timedwait`, consulted only when the semaphore was opened. -/
structure GuardStep where
  semOpen : SemPtr
  semWait : Int
  deriving DecidableEq, Repr

/-- State of the locals after the retry loop. -/
structure GuardResult where
  bOK : Bool
  numOfRetries : Nat
  guardSem : SemPtr
  trace : List Event
  deriving DecidableEq, Repr

/-- Lines 307-331: `while(!bOK && numOfRetries > 0)`.  The loop is entered
with `bOK = 0`; the first argument is `numOfRetries`, the second counts the
attempts already made, the third is the current `guardSem`. -/
def acquireGuard (tok0 : String) (guard : Nat → GuardStep) :
    Nat → Nat → SemPtr → GuardResult
  | 0, _, guardSem => { bOK := false, numOfRetries := 0, guardSem := guardSem, trace := [] }
  | numOfRetries + 1, i, _ =>
    let guardSem := (guard i).semOpen
    let opened := open_semaphore tok0 GUARD_SUFFIX 1 guardSem
    if guardSem = SemPtr.SEM_FAILED then
      let r := acquireGuard tok0 guard numOfRetries (i + 1) guardSem
      { r with trace := opened ++ r.trace }
    else if (guard i).semWait = -1 then
      let r := acquireGuard tok0 guard numOfRetries (i + 1) guardSem
      { r with trace :=
          opened ++ [Event.sem_timedwait guardSem SEM_GUARD_TIMEOUT_S (-1)]
            ++ close_semaphore guardSem tok0 GUARD_SUFFIX ++ r.trace }
    else
      { bOK := true, numOfRetries := numOfRetries, guardSem := guardSem,
        trace :=
          opened ++ [Event.sem_timedwait guardSem SEM_GUARD_TIMEOUT_S (guard i).semWait] }

/-- What the environment answers during one run of `appender_ipc_open`.
`numTokens` and `tokens` are what `split_tokens` (not part of this file)
leaves in its output arguments; `udata` is what `log4c_appender_get_udata`
returns (`none` for `NULL`); `openServer` is the value of the creating
`mq_open`; `openClient` is the value of the `mq_open(queueName, O_WRONLY)`
made after the handshake (each run makes at most one such call);
`threadCreate` is the value of `pthread_create` and `threadId` the thread
identifier it stores on success. -/
structure OpenEnv where
  numTokens : Nat
  tokens : Nat → String
  guard : Nat → GuardStep
  udata : Option appender_ipc_udata_t
  handshake : HandshakeEnv
  openServer : Int
  openClient : Int
  threadCreate : Int
  threadId : Nat

/-- Outcome of a branch taken after the handshake: the new `result`, the
user data, whether `log4c_appender_set_udata` was called, the calls made. -/
structure BranchResult where
  result : Int
  pUserData : appender_ipc_udata_t
  attached : Bool
  trace : List Event
  deriving DecidableEq, Repr

/-- Lines 363-449: `0 == masterInstanceExists`, "We are the 1st instance".
The C code builds `filepath` in `char filepath[256]` without a length check;
the model describes the branch for paths that fit (`OpenEnv.filepathFits`). -/
def ownerBranch (env : OpenEnv) (pUserData : appender_ipc_udata_t) : BranchResult :=
  let unlinked := [Event.mq_unlink pUserData.queueName]
  let p1 := { pUserData with mqueueServer := env.openServer }
  let server :=
    [Event.mq_open p1.queueName OFlag.O_CREAT_O_RDONLY (some createAttr) p1.mqueueServer]
  if p1.mqueueServer = -1 then
    { result := -1, pUserData := p1, attached := false, trace := unlinked ++ server }
  else
    let p2 := { p1 with mqueueClient := env.openClient }
    let client := [Event.mq_open p2.queueName OFlag.O_WRONLY none p2.mqueueClient]
    if p2.mqueueClient = -1 then
      { result := -1, pUserData := p2, attached := false,
        trace := unlinked ++ server ++ client }
    else
      let filepath := env.tokens 1 ++ "/" ++ env.tokens 2
      let p3 := { p2 with rollingFileCategory := some (env.tokens 0),
                          rollingFileAppender := some (env.tokens 0) }
      let sink := [Event.fopen filepath]
      if env.threadCreate ≠ 0 then
        { result := -1, pUserData := p3, attached := false,
          trace := unlinked ++ server ++ client ++ sink
            ++ [Event.pthread_create env.threadCreate] }
      else
        let p4 := { p3 with pumpThread := env.threadId }
        { result := 0, pUserData := p4, attached := true,
          trace := unlinked ++ server ++ client ++ sink
            ++ [Event.pthread_create env.threadCreate, Event.log4c_appender_set_udata,
                Event.usleep (THREAD_SLACKNESS_MS * 1000)] }

/-- Lines 451-459: "We are the 2nd instance". -/
def clientBranch (env : OpenEnv) (pUserData : appender_ipc_udata_t) : BranchResult :=
  let p1 := { pUserData with mqueueClient := env.openClient }
  { result := 0, pUserData := p1, attached := true,
    trace := [Event.mq_open p1.queueName OFlag.O_WRONLY none p1.mqueueClient,
              Event.log4c_appender_set_udata] }

/-- Lines 356-459: the dispatch on the handshake result. -/
def afterHandshake (env : OpenEnv) (pUserData : appender_ipc_udata_t)
    (masterInstanceExists : Int) : BranchResult :=
  if masterInstanceExists = -1 then
    { result := -1, pUserData := pUserData, attached := false, trace := [] }
  else if masterInstanceExists = 0 then ownerBranch env pUserData
  else clientBranch env pUserData

/-- Lines 461-467: release of the guard. -/
def releaseGuard (guardSem : SemPtr) (tok0 : String) : List Event :=
  if guardSem ≠ SemPtr.SEM_FAILED then
    Event.sem_post guardSem :: close_semaphore guardSem tok0 GUARD_SUFFIX
  else []

/-- Lines 469-482: clean-up when `result` is `-1` (`pUserData` is not `NULL`
there). -/
def cleanup (result : Int) (pUserData : appender_ipc_udata_t) : List Event :=
  if result = -1 then
    [Event.mq_close pUserData.mqueueServer, Event.mq_close pUserData.mqueueClient]
      ++ (if pUserData.queueName.length > 0 then [Event.mq_unlink pUserData.queueName]
          else [])
  else []

/-- Outcome of `appender_ipc_open`: the value returned, the user data the
appender holds afterwards (`none` for `NULL`) and the calls made. -/
structure OpenResult where
  result : Int
  udata : Option appender_ipc_udata_t
  trace : List Event
  deriving DecidableEq, Repr

/-- Model of `appender_ipc_open`.  `calloc` in `appender_ipc_make_udata` is
taken to succeed.  The C code builds `queueName` and `queueNameHandShake` in
`char[256]` fields without a length check; the model describes the run for
names that fit all the arrays (`OpenEnv.namesFit`), beyond which the C code
writes past an array and has no defined behaviour. -/
def appender_ipc_open (env : OpenEnv) : OpenResult :=
  if env.numTokens ≠ NUM_OF_NAME_TOKENS then
    { result := -1, udata := env.udata, trace := [] }
  else
    let tok0 := env.tokens 0
    let g := acquireGuard tok0 env.guard 3 0 SemPtr.null
    if (!g.bOK) && g.numOfRetries = 0 then
      { result := -1, udata := env.udata,
        trace := g.trace ++ close_semaphore g.guardSem tok0 GUARD_SUFFIX }
    else
      let p0 := env.udata.getD appender_ipc_make_udata
      let p1 := { p0 with queueName := "/" ++ tok0 ++ "_mqueue" }
      let p2 := { p1 with queueNameHandShake := p1.queueName ++ "_hshake" }
      let hs := master_handshake p2 env.handshake
      let b := afterHandshake env p2 hs.1
      { result := b.result,
        udata := if env.udata.isSome || b.attached then some b.pUserData else none,
        trace := g.trace ++ hs.2 ++ b.trace ++ releaseGuard g.guardSem tok0
                  ++ cleanup b.result b.pUserData }

/-! ## Capacity of the name arrays (lines 51-52, 70, 86, 404) -/

/-- Size of `sem_name`, `queueName`, `queueNameHandShake` and `filepath`. -/
def NAME_BUFFER_SIZE : Nat := 256

/-- The bytes of `s` and the terminating NUL fit an array of `capacity` bytes. -/
def fitsBuffer (s : String) (capacity : Nat) : Bool :=
  decide (s.utf8ByteSize + 1 ≤ capacity)

/-- The `sprintf` of `open_semaphore` and `close_semaphore` (lines 71, 87) stays
inside `sem_name`. -/
def OpenEnv.semNameFits (env : OpenEnv) : Bool :=
  fitsBuffer (semName (env.tokens 0) GUARD_SUFFIX) NAME_BUFFER_SIZE

/-- The two `sprintf` calls of lines 349-350 stay inside `queueName` and
`queueNameHandShake`. -/
def OpenEnv.queueNamesFit (env : OpenEnv) : Bool :=
  fitsBuffer ("/" ++ env.tokens 0 ++ "_mqueue") NAME_BUFFER_SIZE
    && fitsBuffer ("/" ++ env.tokens 0 ++ "_mqueue" ++ "_hshake") NAME_BUFFER_SIZE

/-- The `sprintf` of line 405 stays inside `filepath`. -/
def OpenEnv.filepathFits (env : OpenEnv) : Bool :=
  fitsBuffer (env.tokens 1 ++ "/" ++ env.tokens 2) NAME_BUFFER_SIZE

/-- Every name `appender_ipc_open` can build fits the array it is written to. -/
def OpenEnv.namesFit (env : OpenEnv) : Bool :=
  env.semNameFits && env.queueNamesFit && env.filepathFits

/-! ## Message queues as seen by `mq_send` -/

/-- A kernel message queue: the two attributes fixed at creation and the
messages waiting, oldest first. -/
structure MQueue where
  mq_maxmsg : Nat
  mq_msgsize : Nat
  msgs : List (List Nat)
  deriving DecidableEq, Repr

/-- Outcome of a send on a descriptor opened without `O_NONBLOCK`. -/
inductive SendOutcome where
  | sent (q : MQueue)
  | failed (errno : Errno)
  | blocked
  deriving DecidableEq, Repr

/-- Value returned to the caller, when the call returns. -/
def SendOutcome.ret : SendOutcome → Option Int
  | SendOutcome.sent _ => some 0
  | SendOutcome.failed _ => some (-1)
  | SendOutcome.blocked => none

/-- POSIX `mq_send` with priority 0 on a blocking descriptor: `EBADF` for a
descriptor that is not open, `EMSGSIZE` when `msg_len` exceeds the queue's
`mq_msgsize`, suspension while the queue is full, otherwise the first
`msg_len` bytes at `msg_ptr` are appended behind the waiting messages. -/
def mq_send (q : Option MQueue) (msg_ptr : List Nat) (msg_len : Nat) : SendOutcome :=
  match q with
  | none => SendOutcome.failed Errno.EBADF
  | some q =>
    if msg_len > q.mq_msgsize then SendOutcome.failed Errno.EMSGSIZE
    else if q.msgs.length ≥ q.mq_maxmsg then SendOutcome.blocked
    else SendOutcome.sent { q with msgs := q.msgs ++ [msg_ptr.take msg_len] }

/-- Queue created by `mq_open(..., O_CREAT | ..., &attr)`. -/
def MQueue.create (attr : mq_attr) : MQueue :=
  { mq_maxmsg := attr.mq_maxmsg, mq_msgsize := attr.mq_msgsize, msgs := [] }

/-! ## `appender_ipc_append` (lines 495-508) and `appender_ipc_close` (lines 515-531) -/

/-- Model of `appender_ipc_append`.  `descriptors` maps the process's
message-queue descriptors to the queues they refer to. -/
def appender_ipc_append (descriptors : Int → Option MQueue)
    (pUserData : appender_ipc_udata_t) (evt_rendered_msg : List Nat) : SendOutcome :=
  mq_send (descriptors pUserData.mqueueClient) evt_rendered_msg (strlen evt_rendered_msg)

/-- Model of `appender_ipc_close`: the value returned and the calls made. -/
def appender_ipc_close (pUserData : appender_ipc_udata_t) : Int × List Event :=
  if pUserData.pumpThread ≠ 0 then
    (0, [Event.mq_close pUserData.mqueueServer, Event.mq_close pUserData.mqueueClient,
         Event.mq_unlink pUserData.queueName,
         Event.log4c_appender_close pUserData.rollingFileAppender])
  else (0, [])

/-! ## Vocabulary for statements about traces -/

/-- Calls that release the guard. -/
def Event.isSemPost : Event → Bool
  | Event.sem_post _ => true
  | _ => false

/-- Calls that open the guard semaphore. -/
def Event.isSemOpen : Event → Bool
  | Event.sem_open _ _ _ => true
  | _ => false

/-- Timed waits on the guard, successful or not. -/
def Event.isSemWait : Event → Bool
  | Event.sem_timedwait _ _ _ => true
  | _ => false

/-- Timed waits that succeeded, that is, acquisitions of the guard. -/
def Event.isAcquire : Event → Bool
  | Event.sem_timedwait _ _ ret => ret ≠ -1
  | _ => false

/-- Calls on message queues. -/
def Event.isMqCall : Event → Bool
  | Event.mq_open _ _ _ _ => true
  | Event.mq_unlink _ => true
  | Event.mq_close _ => true
  | Event.mq_timedsend _ _ _ _ _ => true
  | Event.mq_timedreceive _ _ _ _ => true
  | Event.mq_send _ _ _ => true
  | Event.mq_receive _ _ _ => true
  | _ => false

/-- Calls on semaphores. -/
def Event.isSemCall : Event → Bool
  | Event.sem_open _ _ _ => true
  | Event.sem_timedwait _ _ _ => true
  | Event.sem_post _ => true
  | Event.sem_close _ => true
  | Event.sem_unlink _ => true
  | _ => false

/-- An attempt takes the guard when the semaphore was opened and the timed
wait did not return `-1`. -/
def GuardStep.acquired (g : GuardStep) : Bool :=
  g.semOpen ≠ SemPtr.SEM_FAILED && g.semWait ≠ -1

/-- Calls made between the retry loop and the release of the guard. -/
def criticalSection (env : OpenEnv) : List Event :=
  let p0 := env.udata.getD appender_ipc_make_udata
  let p1 := { p0 with queueName := "/" ++ env.tokens 0 ++ "_mqueue" }
  let p2 := { p1 with queueNameHandShake := p1.queueName ++ "_hshake" }
  let hs := master_handshake p2 env.handshake
  hs.2 ++ (afterHandshake env p2 hs.1).trace

/-- Calls made after the release of the guard. -/
def finalCleanup (env : OpenEnv) : List Event :=
  let p0 := env.udata.getD appender_ipc_make_udata
  let p1 := { p0 with queueName := "/" ++ env.tokens 0 ++ "_mqueue" }
  let p2 := { p1 with queueNameHandShake := p1.queueName ++ "_hshake" }
  let hs := master_handshake p2 env.handshake
  let b := afterHandshake env p2 hs.1
  cleanup b.result b.pUserData

/-- Descriptors returned by the successful `mq_open` calls of a run. -/
def openedDescriptors : List Event → List Int
  | [] => []
  | Event.mq_open _ _ _ ret :: rest =>
    if ret ≠ -1 then ret :: openedDescriptors rest else openedDescriptors rest
  | _ :: rest => openedDescriptors rest

/-- Descriptors passed to `mq_close` during a run. -/
def closedDescriptors : List Event → List Int
  | [] => []
  | Event.mq_close mqd :: rest => mqd :: closedDescriptors rest
  | _ :: rest => closedDescriptors rest

/-- Names of the queues a run created (successful `mq_open` with `O_CREAT`). -/
def createdQueues : List Event → List String
  | [] => []
  | Event.mq_open name OFlag.O_CREAT_O_RDONLY _ ret :: rest =>
    if ret ≠ -1 then name :: createdQueues rest else createdQueues rest
  | _ :: rest => createdQueues rest

/-- Names passed to `mq_unlink` during a run. -/
def unlinkedQueues : List Event → List String
  | [] => []
  | Event.mq_unlink name :: rest => name :: unlinkedQueues rest
  | _ :: rest => unlinkedQueues rest

/-- Messages passed to `mq_send` during a run. -/
def sentMessages : List Event → List (List Nat)
  | [] => []
  | Event.mq_send _ msg _ :: rest => msg :: sentMessages rest
  | _ :: rest => sentMessages rest

/-! ## Concrete runs used below -/

/-- Some content for a local `char buffer[MAX_MSG_SIZE+1]` before it is written. -/
def uninitialised : List Nat := List.replicate (MAX_MSG_SIZE + 1) 170

def exampleSteps : List PumpStep :=
  [{ recv := some (bytesOf "hello A"), openHshake := 0, sendPong := 0 },
   { recv := some PING_MESSAGE, openHshake := 7, sendPong := 0 },
   { recv := some (bytesOf "hello B"), openHshake := 0, sendPong := 0 },
   { recv := none, openHshake := 0, sendPong := 0 },
   { recv := some (bytesOf "late"), openHshake := 0, sendPong := 0 }]

def envTrailingBytes : HandshakeEnv :=
  { openShared := 3, openHshake := 4, sendPing := none,
    recvPong := some (PONG_MESSAGE ++ [0, 65]), buffer := uninitialised }

def exampleTokens : Nat → String := fun i => ["orders", "/tmp", "log.txt", "basic"].getD i ""

def guardFree : Nat → GuardStep := fun _ => { semOpen := SemPtr.ptr 1, semWait := 0 }

def guardStuck : Nat → GuardStep := fun _ => { semOpen := SemPtr.ptr 1, semWait := -1 }

def guardThirdTime : Nat → GuardStep := fun i =>
  if i = 0 then { semOpen := SemPtr.SEM_FAILED, semWait := 0 }
  else if i = 1 then { semOpen := SemPtr.ptr 1, semWait := -1 }
  else { semOpen := SemPtr.ptr 2, semWait := 0 }

def exampleEnv (guard : Nat → GuardStep) (handshake : HandshakeEnv) (openClient : Int) :
    OpenEnv :=
  { numTokens := 4, tokens := exampleTokens, guard := guard, udata := none,
    handshake := handshake, openServer := 5, openClient := openClient,
    threadCreate := 0, threadId := 1 }

def hsNoChannel : HandshakeEnv :=
  { openShared := -1, openHshake := 4, sendPing := none, recvPong := none,
    buffer := uninitialised }

def hsResidue : HandshakeEnv :=
  { openShared := 3, openHshake := 4, sendPing := none, recvPong := none,
    buffer := uninitialised }

def hsFullQueue : HandshakeEnv :=
  { openShared := 3, openHshake := 4, sendPing := some Errno.ETIMEDOUT, recvPong := none,
    buffer := uninitialised }

def hsOwnerAlive : HandshakeEnv :=
  { openShared := 3, openHshake := 4, sendPing := none, recvPong := some PONG_MESSAGE,
    buffer := uninitialised }

def clientHandle : appender_ipc_udata_t :=
  { pumpThread := 0, mqueueServer := 0, mqueueClient := 6,
    rollingFileCategory := none, rollingFileAppender := none,
    queueName := "/orders_mqueue", queueNameHandShake := "/orders_mqueue_hshake" }

def ownerHandle : appender_ipc_udata_t :=
  { pumpThread := 1, mqueueServer := 5, mqueueClient := 6,
    rollingFileCategory := some "orders", rollingFileAppender := some "orders",
    queueName := "/orders_mqueue", queueNameHandShake := "/orders_mqueue_hshake" }

def longMessage : List Nat := List.replicate 1025 65 ++ [0]

def exampleDescriptors : Int → Option MQueue := fun d =>
  if d = 6 then some (MQueue.create createAttr) else none

def hsNoHandshakeChannel : HandshakeEnv :=
  { openShared := 3, openHshake := -1, sendPing := none, recvPong := none,
    buffer := uninitialised }

def reopenEnv : OpenEnv :=
  { numTokens := 4, tokens := exampleTokens, guard := guardFree, udata := some clientHandle,
    handshake := hsNoHandshakeChannel, openServer := 5, openClient := 7,
    threadCreate := 0, threadId := 1 }

def pingStep : PumpStep := { recv := some PING_MESSAGE, openHshake := 7, sendPong := 0 }

/-! # Theorems -/

/-! ## Facts about C strings -/

theorem cstr_of_not_mem : ∀ {p : List Nat}, 0 ∉ p → cstr p = p
  | [], _ => rfl
  | a :: p, h => by
    have ha : a ≠ 0 := fun e => h (by simp [e])
    have hp : 0 ∉ p := fun m => h (List.mem_cons_of_mem _ m)
    simp [cstr, ha, cstr_of_not_mem hp]

theorem cstr_nul_free : ∀ (p : List Nat), 0 ∉ cstr p
  | [] => by simp [cstr]
  | a :: p => by
    by_cases ha : a = 0
    · simp [cstr, ha]
    · have := cstr_nul_free p
      simp [cstr, ha, this]
      omega

theorem cstr_append_zero (p rest : List Nat) : cstr (p ++ 0 :: rest) = cstr p := by
  induction p with
  | nil => simp [cstr]
  | cons a p ih =>
    by_cases ha : a = 0
    · simp [cstr, ha]
    · simp [cstr, ha, ih]

theorem cstr_terminate_storeMsg (buf p : List Nat) :
    cstr (terminate (storeMsg buf p) p.length) = cstr p := by
  unfold terminate storeMsg
  rw [List.set_append_right _ _ (le_refl _)]
  by_cases h : p.length < buf.length
  · have hd : buf.drop p.length = buf[p.length] :: buf.drop (p.length + 1) := by
      simp
    rw [hd, Nat.sub_self, List.set_cons_zero, cstr_append_zero]
  · have hd : buf.drop p.length = [] := List.drop_of_length_le (by omega)
    rw [hd]
    simp

theorem strcmp_eq_zero_iff (a b : List Nat) : strcmp a b = 0 ↔ cstr a = cstr b := by
  induction a generalizing b with
  | nil =>
    cases b with
    | nil => simp [strcmp, cstr]
    | cons y b =>
      by_cases hy : y = 0
      · simp [strcmp, cstr, hy]
      · simp [strcmp, cstr, hy]
  | cons x a ih =>
    cases b with
    | nil =>
      by_cases hx : x = 0
      · simp [strcmp, cstr, hx]
      · simp [strcmp, cstr, hx]
    | cons y b =>
      by_cases hxy : x = y
      · subst hxy
        by_cases hx : x = 0
        · simp [strcmp, cstr, hx]
        · simp [strcmp, cstr, hx, ih b]
      · by_cases hx : x = 0
        · by_cases hy : y = 0
          · omega
          · subst hx
            simp [strcmp, cstr, hy]; omega
        · by_cases hy : y = 0
          · subst hy
            simp [strcmp, cstr, hx]
          · simp [strcmp, cstr, hx, hy, hxy]; omega

theorem PING_MESSAGE_nul_free : 0 ∉ PING_MESSAGE := by decide

theorem PONG_MESSAGE_nul_free : 0 ∉ PONG_MESSAGE := by decide

/-! ## The drain loop -/

theorem forwarded_append (xs ys : List Event) :
    forwarded (xs ++ ys) = forwarded xs ++ forwarded ys := by
  induction xs with
  | nil => rfl
  | cons e xs ih => cases e <;> simp [forwarded, ih]

theorem forwarded_receive (mqd : Int) (n : Nat) (ret : Int) (xs : List Event) :
    forwarded (Event.mq_receive mqd n ret :: xs) = forwarded xs := rfl

theorem forwarded_pumpReply (u : appender_ipc_udata_t) (s : PumpStep) :
    forwarded (pumpReply u s) = [] := by
  unfold pumpReply
  by_cases h : s.openHshake = -1 <;> simp [h, forwarded]

/-- The buffer holds PING exactly when the NUL-free payload just received is PING. -/
theorem strcmp_ping_received (buf p : List Nat) (hp : 0 ∉ p) :
    strcmp PING_MESSAGE (terminate (storeMsg buf p) p.length) = 0 ↔ p = PING_MESSAGE := by
  rw [strcmp_eq_zero_iff, cstr_terminate_storeMsg, cstr_of_not_mem hp,
    cstr_of_not_mem PING_MESSAGE_nul_free]
  exact eq_comm

theorem pump_forwarded (u : appender_ipc_udata_t) (steps : List PumpStep) :
    ∀ (buffer : List Nat), (∀ s ∈ steps, ∀ p, s.recv = some p → 0 ∉ p) →
      forwarded (pump_from_queue_to_file u buffer steps).trace
        = (receivedBeforeFailure steps).filter (fun p => p ≠ PING_MESSAGE) := by
  induction steps with
  | nil => intro buffer _; rfl
  | cons s rest ih =>
    intro buffer h
    have hrest : ∀ s ∈ rest, ∀ p, s.recv = some p → 0 ∉ p :=
      fun t ht => h t (List.mem_cons_of_mem _ ht)
    cases hr : s.recv with
    | none => simp [pump_from_queue_to_file, receivedBeforeFailure, hr, forwarded]
    | some p =>
      have hp : 0 ∉ p := h s (List.mem_cons_self _ _) p hr
      have hcmp := strcmp_ping_received buffer p hp
      simp only [pump_from_queue_to_file, receivedBeforeFailure, hr]
      rw [List.cons_append, forwarded_receive, forwarded_append, ih _ hrest]
      by_cases hping : p = PING_MESSAGE
      · have h0 : strcmp PING_MESSAGE (terminate (storeMsg buffer p) p.length) = 0 :=
          hcmp.mpr hping
        rw [if_neg (not_not.mpr h0), forwarded_pumpReply]
        simp [hping]
      · have h0 : strcmp PING_MESSAGE (terminate (storeMsg buffer p) p.length) ≠ 0 :=
          fun e => hping (hcmp.mp e)
        simp [h0, hping, forwarded, cstr_terminate_storeMsg, cstr_of_not_mem hp]

theorem pump_returned (u : appender_ipc_udata_t) (steps : List PumpStep) :
    ∀ (buffer : List Nat),
      ((pump_from_queue_to_file u buffer steps).returned = true ↔ ∃ s ∈ steps, s.recv = none) := by
  induction steps with
  | nil => intro buffer; simp [pump_from_queue_to_file]
  | cons s rest ih =>
    intro buffer
    cases hr : s.recv with
    | none => simp [pump_from_queue_to_file, hr]
    | some p => simp [pump_from_queue_to_file, hr, ih]

theorem pump_last_call (u : appender_ipc_udata_t) (steps : List PumpStep) :
    ∀ (buffer : List Nat), (∃ s ∈ steps, s.recv = none) →
      (pump_from_queue_to_file u buffer steps).trace.getLast?
        = some (Event.mq_receive u.mqueueServer MAX_MSG_SIZE (-1)) := by
  induction steps with
  | nil => intro buffer h; simp at h
  | cons s rest ih =>
    intro buffer h
    cases hr : s.recv with
    | none => simp [pump_from_queue_to_file, hr]
    | some p =>
      have hrest : ∃ s ∈ rest, s.recv = none := by
        obtain ⟨t, ht, htn⟩ := h
        rcases List.mem_cons.mp ht with rfl | ht
        · rw [hr] at htn; cases htn
        · exact ⟨t, ht, htn⟩
      have := ih (terminate (storeMsg buffer p) p.length) hrest
      simp only [pump_from_queue_to_file, hr]
      rw [List.getLast?_append, this]
      rfl

/-- C1: for every finite sequence of receive outcomes whose payloads contain no
NUL byte (as every payload enqueued with `strlen` bytes does), the records the
drain loop hands to the sink are exactly the received payloads different from
`PING_MESSAGE` that precede the first failed receive, verbatim, once each and
in order; `PING_MESSAGE` is never forwarded; the function returns exactly when
a receive failed, and the failed receive is then its last call. -/
theorem pump_forwards_exactly_non_ping (pUserData : appender_ipc_udata_t)
    (buffer : List Nat) (steps : List PumpStep)
    (h : ∀ s ∈ steps, ∀ p, s.recv = some p → 0 ∉ p) :
    forwarded (pump_from_queue_to_file pUserData buffer steps).trace
        = (receivedBeforeFailure steps).filter (fun p => p ≠ PING_MESSAGE)
      ∧ PING_MESSAGE ∉ forwarded (pump_from_queue_to_file pUserData buffer steps).trace
      ∧ ((pump_from_queue_to_file pUserData buffer steps).returned = true
          ↔ ∃ s ∈ steps, s.recv = none)
      ∧ ((∃ s ∈ steps, s.recv = none) →
          (pump_from_queue_to_file pUserData buffer steps).trace.getLast?
            = some (Event.mq_receive pUserData.mqueueServer MAX_MSG_SIZE (-1))) := by
  refine ⟨pump_forwarded pUserData steps buffer h, ?_,
    pump_returned pUserData steps buffer, pump_last_call pUserData steps buffer⟩
  rw [pump_forwarded pUserData steps buffer h]
  simp [List.mem_filter]

/-- Instance of C1 on the example run: its payloads are NUL-free, and what
reaches the sink is the received payloads before the failure, PING removed. -/
theorem pump_forwards_exactly_non_ping_witness :
    (∀ s ∈ exampleSteps, ∀ p, s.recv = some p → 0 ∉ p)
      ∧ forwarded (pump_from_queue_to_file ownerHandle uninitialised exampleSteps).trace
          = (receivedBeforeFailure exampleSteps).filter (fun p => p ≠ PING_MESSAGE) :=
  ⟨by decide,
   (pump_forwards_exactly_non_ping ownerHandle uninitialised exampleSteps (by decide)).1⟩

/-- The example run forwards the two log lines and neither the PING nor the
payload that arrives after the failed receive. -/
theorem pump_example_run :
    forwarded (pump_from_queue_to_file ownerHandle uninitialised exampleSteps).trace
      = [bytesOf "hello A", bytesOf "hello B"] := by
  decide

/-! ## The handshake -/

/-- Buffer comparison of the handshake: the reply matches exactly when the
bytes before its first NUL are `PONG_MESSAGE`. -/
theorem strcmp_pong_received (buf p : List Nat) :
    strcmp (terminate (storeMsg buf p) p.length) PONG_MESSAGE = 0 ↔ cstr p = PONG_MESSAGE := by
  rw [strcmp_eq_zero_iff, cstr_terminate_storeMsg, cstr_of_not_mem PONG_MESSAGE_nul_free]

theorem pingPong_result (mqid mqid_resp : Int) (env : HandshakeEnv) :
    ((pingPong mqid mqid_resp env).1 = 1
        ↔ env.sendPing = none ∧ ∃ p, env.recvPong = some p ∧ cstr p = PONG_MESSAGE)
      ∧ ((pingPong mqid mqid_resp env).1 = 1 ∨ (pingPong mqid mqid_resp env).1 = 0
          ∨ (pingPong mqid mqid_resp env).1 = -1) := by
  unfold pingPong
  cases hs : env.sendPing with
  | some e =>
    by_cases he : e = Errno.EAGAIN <;> simp [he]
  | none =>
    cases hr : env.recvPong with
    | none => simp
    | some p =>
      have hcmp := strcmp_pong_received env.buffer p
      by_cases hp : cstr p = PONG_MESSAGE
      · have h0 := hcmp.mpr hp
        simp [h0, hp]
      · have h0 : strcmp (terminate (storeMsg env.buffer p) p.length) PONG_MESSAGE ≠ 0 :=
          fun e => hp (hcmp.mp e)
        simp [h0, hp]

/-- C3 (amended): `master_handshake` returns 1 if and only if the shared
channel was opened for sending, the handshake channel was created, the PING
send succeeded, and the payload received on the handshake channel, read as a
C string (its bytes before the first NUL), equals `PONG_MESSAGE`; in every
case the result is 1, 0 or -1. -/
theorem master_handshake_one_iff (pUserData : appender_ipc_udata_t) (env : HandshakeEnv) :
    ((master_handshake pUserData env).1 = 1
        ↔ env.openShared ≠ -1 ∧ env.openHshake ≠ -1 ∧ env.sendPing = none
            ∧ ∃ p, env.recvPong = some p ∧ cstr p = PONG_MESSAGE)
      ∧ ((master_handshake pUserData env).1 = 1 ∨ (master_handshake pUserData env).1 = 0
          ∨ (master_handshake pUserData env).1 = -1) := by
  have hpp := pingPong_result env.openShared env.openHshake env
  unfold master_handshake handshakeBody
  by_cases h1 : env.openShared = -1
  · simp [h1]
  · by_cases h2 : env.openHshake = -1
    · simp [h1, h2]
    · simpa [h1, h2] using hpp

/-- C3 (as stated) fails: a reply made of `PONG_MESSAGE`, a NUL and one more
byte is not equal to `PONG_MESSAGE`, yet the handshake returns 1. -/
theorem master_handshake_accepts_longer_payload :
    ¬ ((master_handshake appender_ipc_make_udata envTrailingBytes).1 = 1
        ↔ envTrailingBytes.openShared ≠ -1 ∧ envTrailingBytes.openHshake ≠ -1
            ∧ envTrailingBytes.sendPing = none
            ∧ envTrailingBytes.recvPong = some PONG_MESSAGE) := by
  decide

/-! ## The name arrays -/

theorem utf8ByteSize_append (a b : String) :
    (a ++ b).utf8ByteSize = a.utf8ByteSize + b.utf8ByteSize := by
  cases a with
  | mk as =>
    cases b with
    | mk bs =>
      show String.utf8ByteSize ⟨as ++ bs⟩ = _
      simp [String.utf8ByteSize_mk, String.utf8Len_append]

/-- The semaphore name fits `sem_name[256]` exactly when `tokens[0]` has at
most 248 bytes. -/
theorem semNameFits_iff (env : OpenEnv) :
    env.semNameFits = true ↔ (env.tokens 0).utf8ByteSize ≤ 248 := by
  have h1 : "/".utf8ByteSize = 1 := by decide
  have h2 : "_".utf8ByteSize = 1 := by decide
  have h3 : "guard".utf8ByteSize = 5 := by decide
  simp only [OpenEnv.semNameFits, fitsBuffer, semName, GUARD_SUFFIX, NAME_BUFFER_SIZE,
    utf8ByteSize_append, h1, h2, h3, decide_eq_true_eq]
  omega

/-- Both queue names fit their 256-byte fields exactly when `tokens[0]` has at
most 240 bytes. -/
theorem queueNamesFit_iff (env : OpenEnv) :
    env.queueNamesFit = true ↔ (env.tokens 0).utf8ByteSize ≤ 240 := by
  have h1 : "/".utf8ByteSize = 1 := by decide
  have h2 : "_mqueue".utf8ByteSize = 7 := by decide
  have h3 : "_hshake".utf8ByteSize = 7 := by decide
  simp only [OpenEnv.queueNamesFit, fitsBuffer, NAME_BUFFER_SIZE, utf8ByteSize_append, h1, h2,
    h3, Bool.and_eq_true, decide_eq_true_eq]
  omega

/-- The file path fits `filepath[256]` exactly when `tokens[1]` and `tokens[2]`
have at most 254 bytes together. -/
theorem filepathFits_iff (env : OpenEnv) :
    env.filepathFits = true
      ↔ (env.tokens 1).utf8ByteSize + (env.tokens 2).utf8ByteSize ≤ 254 := by
  have h1 : "/".utf8ByteSize = 1 := by decide
  simp only [OpenEnv.filepathFits, fitsBuffer, NAME_BUFFER_SIZE, utf8ByteSize_append, h1,
    decide_eq_true_eq]
  omega

/-! ## The guard -/

theorem acquireGuard_all_fail (tok0 : String) (guard : Nat → GuardStep) :
    ∀ (n i : Nat) (sem : SemPtr), (∀ j, j < n → (guard (i + j)).acquired = false) →
      (acquireGuard tok0 guard n i sem).bOK = false
        ∧ (acquireGuard tok0 guard n i sem).numOfRetries = 0
        ∧ (acquireGuard tok0 guard n i sem).trace.countP Event.isSemOpen = n
        ∧ (acquireGuard tok0 guard n i sem).trace.countP Event.isSemWait ≤ n
        ∧ (∀ e ∈ (acquireGuard tok0 guard n i sem).trace,
            e.isSemCall = true ∧ e.isSemPost = false ∧ e.isAcquire = false) := by
  intro n
  induction n with
  | zero => intro i sem _; simp [acquireGuard]
  | succ n ih =>
    intro i sem h
    have h0 : (guard i).acquired = false := by simpa using h 0 (Nat.succ_pos n)
    have hrest : ∀ j, j < n → (guard (i + 1 + j)).acquired = false := by
      intro j hj
      have := h (j + 1) (Nat.succ_lt_succ hj)
      rwa [show i + (j + 1) = i + 1 + j by omega] at this
    by_cases hs : (guard i).semOpen = SemPtr.SEM_FAILED
    · obtain ⟨a, b, c, d, e⟩ := ih (i + 1) (guard i).semOpen hrest
      simp only [acquireGuard, open_semaphore, List.singleton_append, hs, if_true]
      rw [hs] at a b c d e
      refine ⟨a, b, ?_, ?_, ?_⟩
      · simp [List.countP_cons, Event.isSemOpen, c]
      · simp [List.countP_cons, Event.isSemWait]; omega
      · intro ev hev
        rcases List.mem_cons.mp hev with rfl | hev
        · simp [Event.isSemCall, Event.isSemPost, Event.isAcquire]
        · exact e ev hev
    · have hw : (guard i).semWait = -1 := by
        simpa [GuardStep.acquired, hs] using h0
      obtain ⟨a, b, c, d, e⟩ := ih (i + 1) (guard i).semOpen hrest
      simp only [acquireGuard, open_semaphore, List.singleton_append, List.cons_append,
        List.nil_append, hs, hw, if_true, if_false]
      refine ⟨a, b, ?_, ?_, ?_⟩
      · simp [List.countP_cons, List.countP_append, close_semaphore, Event.isSemOpen, c]
      · simp [List.countP_cons, List.countP_append, close_semaphore, Event.isSemWait]; omega
      · intro ev hev
        simp only [close_semaphore, List.cons_append, List.nil_append, List.mem_cons] at hev
        rcases hev with rfl | rfl | rfl | rfl | hev
        · simp [Event.isSemCall, Event.isSemPost, Event.isAcquire]
        · simp [Event.isSemCall, Event.isSemPost, Event.isAcquire]
        · simp [Event.isSemCall, Event.isSemPost, Event.isAcquire]
        · simp [Event.isSemCall, Event.isSemPost, Event.isAcquire]
        · exact e ev hev

theorem acquireGuard_first_success (tok0 : String) (guard : Nat → GuardStep) :
    ∀ (k n i : Nat) (sem : SemPtr), k < n →
      (∀ j, j < k → (guard (i + j)).acquired = false) → (guard (i + k)).acquired = true →
      (acquireGuard tok0 guard n i sem).bOK = true
        ∧ (acquireGuard tok0 guard n i sem).guardSem = (guard (i + k)).semOpen
        ∧ (guard (i + k)).semOpen ≠ SemPtr.SEM_FAILED
        ∧ (guard (i + k)).semWait ≠ -1
        ∧ ∃ pre, (acquireGuard tok0 guard n i sem).trace
              = pre ++ [Event.sem_timedwait (guard (i + k)).semOpen SEM_GUARD_TIMEOUT_S
                          (guard (i + k)).semWait]
            ∧ pre.countP Event.isSemOpen = k + 1
            ∧ pre.countP Event.isSemWait ≤ k
            ∧ (∀ e ∈ pre, e.isSemCall = true ∧ e.isSemPost = false ∧ e.isAcquire = false) := by
  intro k
  induction k with
  | zero =>
    intro n i sem hn _ hk
    obtain ⟨m, rfl⟩ : ∃ m, n = m + 1 := ⟨n - 1, by omega⟩
    simp only [Nat.add_zero] at hk ⊢
    have hs : (guard i).semOpen ≠ SemPtr.SEM_FAILED := by
      intro e; simp [GuardStep.acquired, e] at hk
    have hw : (guard i).semWait ≠ -1 := by
      intro e; simp [GuardStep.acquired, e] at hk
    simp only [acquireGuard, open_semaphore, List.singleton_append, hs, hw, if_false]
    refine ⟨trivial, trivial, hs, hw,
      [Event.sem_open (semName tok0 GUARD_SUFFIX) 1 (guard i).semOpen], rfl, ?_, ?_, ?_⟩
    · simp [Event.isSemOpen]
    · simp [Event.isSemWait]
    · intro e he
      rcases List.mem_singleton.mp he with rfl
      simp [Event.isSemCall, Event.isSemPost, Event.isAcquire]
  | succ k ih =>
    intro n i sem hn hfail hk
    obtain ⟨m, rfl⟩ : ∃ m, n = m + 1 := ⟨n - 1, by omega⟩
    have h0 : (guard i).acquired = false := by simpa using hfail 0 (Nat.succ_pos k)
    have hrest : ∀ j, j < k → (guard (i + 1 + j)).acquired = false := by
      intro j hj
      have := hfail (j + 1) (Nat.succ_lt_succ hj)
      rwa [show i + (j + 1) = i + 1 + j by omega] at this
    have hk1 : (guard (i + 1 + k)).acquired = true := by
      rwa [show i + (k + 1) = i + 1 + k by omega] at hk
    have hidx : i + (k + 1) = i + 1 + k := by omega
    rw [hidx]
    by_cases hs : (guard i).semOpen = SemPtr.SEM_FAILED
    · obtain ⟨a, b, c, d, pre, e, f, g, h⟩ :=
        ih m (i + 1) (guard i).semOpen (by omega) hrest hk1
      simp only [acquireGuard, open_semaphore, List.singleton_append, hs, if_true]
      rw [hs] at a b e
      refine ⟨a, b, c, d, Event.sem_open (semName tok0 GUARD_SUFFIX) 1 SemPtr.SEM_FAILED :: pre,
        by rw [e]; rfl, ?_, ?_, ?_⟩
      · simp [List.countP_cons, Event.isSemOpen, f]
      · simp [List.countP_cons, Event.isSemWait]; omega
      · intro ev hev
        rcases List.mem_cons.mp hev with rfl | hev
        · simp [Event.isSemCall, Event.isSemPost, Event.isAcquire]
        · exact h ev hev
    · have hw : (guard i).semWait = -1 := by
        simpa [GuardStep.acquired, hs] using h0
      obtain ⟨a, b, c, d, pre, e, f, g, h⟩ :=
        ih m (i + 1) (guard i).semOpen (by omega) hrest hk1
      simp only [acquireGuard, open_semaphore, List.singleton_append, List.cons_append,
        List.nil_append, hs, hw, if_true, if_false]
      refine ⟨a, b, c, d,
        [Event.sem_open (semName tok0 GUARD_SUFFIX) 1 (guard i).semOpen,
          Event.sem_timedwait (guard i).semOpen SEM_GUARD_TIMEOUT_S (-1)]
          ++ close_semaphore (guard i).semOpen tok0 GUARD_SUFFIX ++ pre,
        by rw [e]; simp, ?_, ?_, ?_⟩
      · simp [List.countP_cons, List.countP_append, close_semaphore, Event.isSemOpen, f]
      · simp [List.countP_cons, List.countP_append, close_semaphore, Event.isSemWait]; omega
      · intro ev hev
        simp only [close_semaphore, List.cons_append, List.nil_append, List.mem_cons] at hev
        rcases hev with rfl | rfl | rfl | rfl | hev
        · simp [Event.isSemCall, Event.isSemPost, Event.isAcquire]
        · simp [Event.isSemCall, Event.isSemPost, Event.isAcquire]
        · simp [Event.isSemCall, Event.isSemPost, Event.isAcquire]
        · simp [Event.isSemCall, Event.isSemPost, Event.isAcquire]
        · exact h ev hev

/-- Either every one of the first `n` attempts fails, or there is a first one
that succeeds. -/
theorem first_acquired_or_none (guard : Nat → GuardStep) :
    ∀ n : Nat, (∀ j, j < n → (guard j).acquired = false)
      ∨ ∃ k, k < n ∧ (∀ j, j < k → (guard j).acquired = false) ∧ (guard k).acquired = true := by
  intro n
  induction n with
  | zero => left; intro j hj; omega
  | succ n ih =>
    rcases ih with hall | ⟨k, hk, hlt, hacq⟩
    · by_cases hn : (guard n).acquired = true
      · right; exact ⟨n, Nat.lt_succ_self n, hall, hn⟩
      · left
        intro j hj
        rcases Nat.lt_succ_iff_lt_or_eq.mp hj with h | rfl
        · exact hall j h
        · simpa using hn
    · right; exact ⟨k, Nat.lt_succ_of_lt hk, hlt, hacq⟩

theorem not_sem_call {e : Event} (h : e.isSemCall = false) :
    e.isSemPost = false ∧ e.isSemOpen = false ∧ e.isSemWait = false ∧ e.isAcquire = false := by
  cases e <;> simp_all [Event.isSemCall, Event.isSemPost, Event.isSemOpen, Event.isSemWait,
    Event.isAcquire]

theorem pingPong_no_sem (mqid mqid_resp : Int) (env : HandshakeEnv) :
    ∀ e ∈ (pingPong mqid mqid_resp env).2, e.isSemCall = false := by
  unfold pingPong
  cases env.sendPing with
  | some errno => simp [Event.isSemCall]
  | none =>
    cases env.recvPong with
    | none => simp [Event.isSemCall]
    | some p => simp [Event.isSemCall]

theorem master_handshake_no_sem (u : appender_ipc_udata_t) (env : HandshakeEnv) :
    ∀ e ∈ (master_handshake u env).2, e.isSemCall = false := by
  have hpp := pingPong_no_sem env.openShared env.openHshake env
  unfold master_handshake handshakeBody
  by_cases h1 : env.openShared = -1
  · simp [h1, Event.isSemCall]
  · by_cases h2 : env.openHshake = -1
    · simp [h1, h2, Event.isSemCall]
    · intro e he
      simp only [h1, h2, ne_eq, not_false_eq_true, if_true, if_false, List.mem_append,
        List.mem_cons, List.mem_singleton, List.not_mem_nil, or_false] at he
      rcases he with ((rfl | rfl | rfl) | he) | rfl | rfl | rfl
      · rfl
      · rfl
      · rfl
      · exact hpp e he
      · rfl
      · rfl
      · rfl

theorem ownerBranch_no_sem (env : OpenEnv) (u : appender_ipc_udata_t) :
    ∀ e ∈ (ownerBranch env u).trace, e.isSemCall = false := by
  unfold ownerBranch
  by_cases h1 : env.openServer = -1
  · simp [h1, Event.isSemCall]
  · by_cases h2 : env.openClient = -1
    · simp [h1, h2, Event.isSemCall]
    · by_cases h3 : env.threadCreate = 0 <;> simp [h1, h2, h3, Event.isSemCall]

theorem afterHandshake_no_sem (env : OpenEnv) (u : appender_ipc_udata_t) (m : Int) :
    ∀ e ∈ (afterHandshake env u m).trace, e.isSemCall = false := by
  unfold afterHandshake
  by_cases h1 : m = -1
  · simp [h1]
  · by_cases h2 : m = 0
    · simpa [h1, h2] using ownerBranch_no_sem env u
    · simp [h1, h2, clientBranch, Event.isSemCall]

theorem cleanup_no_sem (result : Int) (u : appender_ipc_udata_t) :
    ∀ e ∈ cleanup result u, e.isSemCall = false := by
  unfold cleanup
  intro e he
  split_ifs at he <;> simp at he
  · rcases he with rfl | rfl | rfl <;> rfl
  · rcases he with rfl | rfl <;> rfl

theorem criticalSection_no_sem (env : OpenEnv) :
    ∀ e ∈ criticalSection env, e.isSemCall = false := by
  intro e he
  simp only [criticalSection, List.mem_append] at he
  rcases he with he | he
  · exact master_handshake_no_sem _ _ e he
  · exact afterHandshake_no_sem _ _ _ e he

theorem finalCleanup_no_sem (env : OpenEnv) :
    ∀ e ∈ finalCleanup env, e.isSemCall = false :=
  fun e he => cleanup_no_sem _ _ e he

theorem open_trace_all_fail (env : OpenEnv) (htok : env.numTokens = NUM_OF_NAME_TOKENS)
    (hfail : ∀ j, j < 3 → (env.guard j).acquired = false) :
    (appender_ipc_open env).result = -1
      ∧ (appender_ipc_open env).udata = env.udata
      ∧ (appender_ipc_open env).trace
          = (acquireGuard (env.tokens 0) env.guard 3 0 SemPtr.null).trace
              ++ close_semaphore (acquireGuard (env.tokens 0) env.guard 3 0 SemPtr.null).guardSem
                  (env.tokens 0) GUARD_SUFFIX := by
  have h := acquireGuard_all_fail (env.tokens 0) env.guard 3 0 SemPtr.null
    (fun j hj => by simpa using hfail j hj)
  simp [appender_ipc_open, htok, h.1, h.2.1]

theorem open_trace_acquired (env : OpenEnv) (htok : env.numTokens = NUM_OF_NAME_TOKENS)
    (hb : (acquireGuard (env.tokens 0) env.guard 3 0 SemPtr.null).bOK = true) :
    (appender_ipc_open env).trace
      = (acquireGuard (env.tokens 0) env.guard 3 0 SemPtr.null).trace
          ++ criticalSection env
          ++ releaseGuard (acquireGuard (env.tokens 0) env.guard 3 0 SemPtr.null).guardSem
              (env.tokens 0)
          ++ finalCleanup env := by
  simp [appender_ipc_open, htok, hb, criticalSection, finalCleanup]

theorem countP_eq_zero_of_no_sem {l : List Event} (h : ∀ e ∈ l, e.isSemCall = false) :
    l.countP Event.isSemPost = 0 ∧ l.countP Event.isSemOpen = 0
      ∧ l.countP Event.isSemWait = 0 ∧ l.any Event.isAcquire = false := by
  refine ⟨?_, ?_, ?_, ?_⟩
  · exact List.countP_eq_zero.mpr (fun e he => by simp [(not_sem_call (h e he)).1])
  · exact List.countP_eq_zero.mpr (fun e he => by simp [(not_sem_call (h e he)).2.1])
  · exact List.countP_eq_zero.mpr (fun e he => by simp [(not_sem_call (h e he)).2.2.1])
  · simpa using fun e he => (not_sem_call (h e he)).2.2.2

theorem close_semaphore_props (sem : SemPtr) (b sfx : String) :
    (close_semaphore sem b sfx).countP Event.isSemPost = 0
      ∧ (close_semaphore sem b sfx).countP Event.isSemOpen = 0
      ∧ (close_semaphore sem b sfx).countP Event.isSemWait = 0
      ∧ (close_semaphore sem b sfx).any Event.isAcquire = false
      ∧ (∀ e ∈ close_semaphore sem b sfx, e.isMqCall = false) := by
  simp [close_semaphore, Event.isSemPost, Event.isSemOpen, Event.isSemWait, Event.isAcquire,
    Event.isMqCall]

theorem guard_trace_props {l : List Event}
    (h : ∀ e ∈ l, e.isSemCall = true ∧ e.isSemPost = false ∧ e.isAcquire = false) :
    l.countP Event.isSemPost = 0 ∧ l.any Event.isAcquire = false
      ∧ (∀ e ∈ l, e.isMqCall = false) := by
  refine ⟨List.countP_eq_zero.mpr (fun e he => by simp [(h e he).2.1]), ?_, ?_⟩
  · simpa using fun e he => (h e he).2.2
  · intro e he
    have := (h e he).1
    cases e <;> simp_all [Event.isSemCall, Event.isMqCall]

/-- Shape of the trace of `appender_ipc_open`: either no timed wait succeeded
and the guard is never posted, or the trace is the failed attempts, the
successful wait, the guarded section, one `sem_post` on the semaphore just
acquired, and the rest, with no other `sem_post` anywhere. -/
theorem open_trace_shape (env : OpenEnv) :
    ((appender_ipc_open env).trace.any Event.isAcquire = false
        ∧ (appender_ipc_open env).trace.countP Event.isSemPost = 0)
      ∨ ∃ pre mid post sem ret, ret ≠ -1
          ∧ (appender_ipc_open env).trace
              = pre ++ Event.sem_timedwait sem SEM_GUARD_TIMEOUT_S ret
                  :: (mid ++ Event.sem_post sem :: post)
          ∧ pre.any Event.isAcquire = false
          ∧ pre.countP Event.isSemPost = 0
          ∧ mid.countP Event.isSemPost = 0
          ∧ post.countP Event.isSemPost = 0 := by
  by_cases htok : env.numTokens = NUM_OF_NAME_TOKENS
  · rcases first_acquired_or_none env.guard 3 with hall | ⟨k, hk, hlt, hacq⟩
    · left
      obtain ⟨_, _, ht⟩ := open_trace_all_fail env htok hall
      have h := acquireGuard_all_fail (env.tokens 0) env.guard 3 0 SemPtr.null
        (fun j hj => by simpa using hall j hj)
      have hg := guard_trace_props h.2.2.2.2
      have hc := close_semaphore_props
        (acquireGuard (env.tokens 0) env.guard 3 0 SemPtr.null).guardSem (env.tokens 0)
        GUARD_SUFFIX
      rw [ht]
      refine ⟨?_, ?_⟩
      · rw [List.any_append, hg.2.1, hc.2.2.2.1]; rfl
      · rw [List.countP_append, hg.1, hc.1]
    · right
      obtain ⟨hb, hsem, hne, hw, pre, hpre, _, _, hprops⟩ :=
        acquireGuard_first_success (env.tokens 0) env.guard k 3 0 SemPtr.null hk
          (fun j hj => by simpa using hlt j hj) (by simpa using hacq)
      simp only [Nat.zero_add] at hsem hne hw hpre
      have ht := open_trace_acquired env htok hb
      have hg := guard_trace_props hprops
      have hcs := countP_eq_zero_of_no_sem (criticalSection_no_sem env)
      have hfc := countP_eq_zero_of_no_sem (finalCleanup_no_sem env)
      have hc := close_semaphore_props (env.guard k).semOpen (env.tokens 0) GUARD_SUFFIX
      refine ⟨pre, criticalSection env,
        close_semaphore (env.guard k).semOpen (env.tokens 0) GUARD_SUFFIX ++ finalCleanup env,
        (env.guard k).semOpen, (env.guard k).semWait, hw, ?_, hg.2.1, hg.1, hcs.1, ?_⟩
      · rw [ht, hpre, hsem]
        simp [releaseGuard, hne]
      · rw [List.countP_append, hc.1, hfc.1]
  · left
    simp [appender_ipc_open, htok]

/-- C9: in every run of `appender_ipc_open` whose names fit their arrays
(when the name has its 4 tokens; otherwise no name is built) the number of
`sem_post` calls is 1 when some `sem_timedwait` succeeded and 0 otherwise;
when the guard was acquired, the single `sem_post` is made on the semaphore
that was acquired, after the acquisition and before the function returns,
whatever the handshake and the later steps did. -/
theorem guard_released_exactly_once (env : OpenEnv)
    (_hfit : env.numTokens = NUM_OF_NAME_TOKENS → env.namesFit = true) :
    (appender_ipc_open env).trace.countP Event.isSemPost
        = (if (appender_ipc_open env).trace.any Event.isAcquire then 1 else 0)
      ∧ (((appender_ipc_open env).trace.any Event.isAcquire = false
            ∧ (appender_ipc_open env).trace.countP Event.isSemPost = 0)
          ∨ ∃ pre mid post sem ret, ret ≠ -1
              ∧ (appender_ipc_open env).trace
                  = pre ++ Event.sem_timedwait sem SEM_GUARD_TIMEOUT_S ret
                      :: (mid ++ Event.sem_post sem :: post)
              ∧ pre.any Event.isAcquire = false
              ∧ pre.countP Event.isSemPost = 0
              ∧ mid.countP Event.isSemPost = 0
              ∧ post.countP Event.isSemPost = 0) := by
  refine ⟨?_, open_trace_shape env⟩
  rcases open_trace_shape env with ⟨h1, h2⟩ | ⟨pre, mid, post, sem, ret, hret, ht, _, h1, h2, h3⟩
  · rw [h1, h2]; rfl
  · have hany : (appender_ipc_open env).trace.any Event.isAcquire = true := by
      rw [ht]
      simp [Event.isAcquire, hret]
    rw [hany, ht]
    simp [List.countP_append, List.countP_cons, Event.isSemPost, h1, h2, h3]

/-- Instance of C9: the names of the example fit, the guard is taken at the
third attempt, and the run posts it once. -/
theorem guard_released_exactly_once_witness :
    ((exampleEnv guardThirdTime hsResidue 6).numTokens = NUM_OF_NAME_TOKENS →
        (exampleEnv guardThirdTime hsResidue 6).namesFit = true)
      ∧ (appender_ipc_open (exampleEnv guardThirdTime hsResidue 6)).trace.any
          Event.isAcquire = true
      ∧ (appender_ipc_open (exampleEnv guardThirdTime hsResidue 6)).trace.countP
          Event.isSemPost
          = (if (appender_ipc_open (exampleEnv guardThirdTime hsResidue 6)).trace.any
                Event.isAcquire then 1 else 0) :=
  ⟨fun _ => by decide, by decide,
   (guard_released_exactly_once (exampleEnv guardThirdTime hsResidue 6)
      (fun _ => by decide)).1⟩

theorem releaseGuard_counts (sem : SemPtr) (tok0 : String) :
    (releaseGuard sem tok0).countP Event.isSemOpen = 0
      ∧ (releaseGuard sem tok0).countP Event.isSemWait = 0 := by
  unfold releaseGuard
  by_cases h : sem = SemPtr.SEM_FAILED <;>
    simp [h, close_semaphore, Event.isSemOpen, Event.isSemWait]

theorem open_counts_all_fail (env : OpenEnv) (htok : env.numTokens = NUM_OF_NAME_TOKENS)
    (hfail : ∀ j, j < 3 → (env.guard j).acquired = false) :
    (appender_ipc_open env).trace.countP Event.isSemOpen = 3
      ∧ (appender_ipc_open env).trace.countP Event.isSemWait ≤ 3
      ∧ (∀ e ∈ (appender_ipc_open env).trace, e.isMqCall = false) := by
  obtain ⟨_, _, ht⟩ := open_trace_all_fail env htok hfail
  have h := acquireGuard_all_fail (env.tokens 0) env.guard 3 0 SemPtr.null
    (fun j hj => by simpa using hfail j hj)
  have hg := guard_trace_props h.2.2.2.2
  have hc := close_semaphore_props
    (acquireGuard (env.tokens 0) env.guard 3 0 SemPtr.null).guardSem (env.tokens 0) GUARD_SUFFIX
  rw [ht]
  refine ⟨?_, ?_, ?_⟩
  · rw [List.countP_append, h.2.2.1, hc.2.1]
  · rw [List.countP_append, hc.2.2.1]; exact h.2.2.2.1
  · intro e he
    rcases List.mem_append.mp he with he | he
    · exact hg.2.2 e he
    · exact hc.2.2.2.2 e he

theorem open_counts_first_success (env : OpenEnv) (htok : env.numTokens = NUM_OF_NAME_TOKENS)
    (k : Nat) (hk : k < 3) (hlt : ∀ j, j < k → (env.guard j).acquired = false)
    (hacq : (env.guard k).acquired = true) :
    (appender_ipc_open env).trace.countP Event.isSemOpen = k + 1
      ∧ (appender_ipc_open env).trace.countP Event.isSemWait ≤ k + 1 := by
  obtain ⟨hb, _, _, _, pre, hpre, hopen, hwait, _⟩ :=
    acquireGuard_first_success (env.tokens 0) env.guard k 3 0 SemPtr.null hk
      (fun j hj => by simpa using hlt j hj) (by simpa using hacq)
  have ht := open_trace_acquired env htok hb
  have hcs := countP_eq_zero_of_no_sem (criticalSection_no_sem env)
  have hfc := countP_eq_zero_of_no_sem (finalCleanup_no_sem env)
  have hr := releaseGuard_counts
    (acquireGuard (env.tokens 0) env.guard 3 0 SemPtr.null).guardSem (env.tokens 0)
  rw [ht, hpre]
  refine ⟨?_, ?_⟩
  · simp only [List.countP_append, hcs.2.1, hfc.2.1, hr.1, hopen]
    simp [Event.isSemOpen]
  · simp only [List.countP_append, hcs.2.2.1, hfc.2.2.1, hr.2]
    simp [Event.isSemWait]
    omega

/-- Counts of the guard calls in the modelled run, for every environment. -/
theorem open_guard_counts (env : OpenEnv) :
    (appender_ipc_open env).trace.countP Event.isSemOpen ≤ 3
      ∧ (appender_ipc_open env).trace.countP Event.isSemWait ≤ 3
      ∧ (∀ k, k < 3 → env.numTokens = NUM_OF_NAME_TOKENS →
          (∀ j, j < k → (env.guard j).acquired = false) → (env.guard k).acquired = true →
          (appender_ipc_open env).trace.countP Event.isSemOpen = k + 1
            ∧ (appender_ipc_open env).trace.countP Event.isSemWait ≤ k + 1)
      ∧ ((∀ j, j < 3 → (env.guard j).acquired = false) →
          (appender_ipc_open env).result = -1
            ∧ (∀ e ∈ (appender_ipc_open env).trace, e.isMqCall = false)
            ∧ (env.numTokens = NUM_OF_NAME_TOKENS →
                (appender_ipc_open env).trace.countP Event.isSemOpen = 3)) := by
  by_cases htok : env.numTokens = NUM_OF_NAME_TOKENS
  · refine ⟨?_, ?_, fun k hk _ hlt hacq => open_counts_first_success env htok k hk hlt hacq,
      fun hall => ⟨(open_trace_all_fail env htok hall).1,
        (open_counts_all_fail env htok hall).2.2, fun _ => (open_counts_all_fail env htok hall).1⟩⟩
    · rcases first_acquired_or_none env.guard 3 with hall | ⟨k, hk, hlt, hacq⟩
      · exact le_of_eq (open_counts_all_fail env htok hall).1
      · have := (open_counts_first_success env htok k hk hlt hacq).1
        omega
    · rcases first_acquired_or_none env.guard 3 with hall | ⟨k, hk, hlt, hacq⟩
      · exact (open_counts_all_fail env htok hall).2.1
      · have := (open_counts_first_success env htok k hk hlt hacq).2
        omega
  · have ht : (appender_ipc_open env).trace = [] := by simp [appender_ipc_open, htok]
    have hr : (appender_ipc_open env).result = -1 := by simp [appender_ipc_open, htok]
    rw [ht, hr]
    refine ⟨by simp, by simp, fun k _ h => absurd h htok, fun _ => ⟨rfl, by simp, fun h => absurd h htok⟩⟩

/-- C10: in a run of `appender_ipc_open` whose names fit their arrays, the
guard semaphore is opened at most 3 times and waited on at most 3 times; when
the first attempt that succeeds is attempt `k` (counted from 0), exactly
`k + 1` attempts are made; when the semaphore name fits `sem_name` and all 3
attempts fail (the semaphore cannot be opened, or the timed wait fails or
times out) the function returns -1, after exactly 3 attempts, without a
single message-queue call: no handshake, no open, creation or unlink of the
shared channel. -/
theorem guard_attempts_bounded (env : OpenEnv) :
    ((env.numTokens = NUM_OF_NAME_TOKENS → env.namesFit = true) →
        (appender_ipc_open env).trace.countP Event.isSemOpen ≤ 3
          ∧ (appender_ipc_open env).trace.countP Event.isSemWait ≤ 3)
      ∧ (∀ k, k < 3 → env.numTokens = NUM_OF_NAME_TOKENS → env.namesFit = true →
          (∀ j, j < k → (env.guard j).acquired = false) → (env.guard k).acquired = true →
          (appender_ipc_open env).trace.countP Event.isSemOpen = k + 1
            ∧ (appender_ipc_open env).trace.countP Event.isSemWait ≤ k + 1)
      ∧ ((env.numTokens = NUM_OF_NAME_TOKENS → env.semNameFits = true) →
          (∀ j, j < 3 → (env.guard j).acquired = false) →
          (appender_ipc_open env).result = -1
            ∧ (∀ e ∈ (appender_ipc_open env).trace, e.isMqCall = false)
            ∧ (env.numTokens = NUM_OF_NAME_TOKENS →
                (appender_ipc_open env).trace.countP Event.isSemOpen = 3)) :=
  ⟨fun _ => ⟨(open_guard_counts env).1, (open_guard_counts env).2.1⟩,
   fun k hk htok _ hlt hacq => (open_guard_counts env).2.2.1 k hk htok hlt hacq,
   fun _ hall => (open_guard_counts env).2.2.2 hall⟩

/-- Instances of C10: with a guard that never becomes free the function
returns -1 and makes no message-queue call; with a guard taken at the third
attempt the semaphore is opened 3 times.  The names of both runs fit. -/
theorem guard_attempts_bounded_witness :
    (((exampleEnv guardStuck hsResidue 6).numTokens = NUM_OF_NAME_TOKENS →
          (exampleEnv guardStuck hsResidue 6).semNameFits = true)
        ∧ (∀ j, j < 3 → ((exampleEnv guardStuck hsResidue 6).guard j).acquired = false)
        ∧ (appender_ipc_open (exampleEnv guardStuck hsResidue 6)).result = -1
        ∧ (∀ e ∈ (appender_ipc_open (exampleEnv guardStuck hsResidue 6)).trace,
            e.isMqCall = false))
      ∧ ((exampleEnv guardThirdTime hsResidue 6).numTokens = NUM_OF_NAME_TOKENS
        ∧ (exampleEnv guardThirdTime hsResidue 6).namesFit = true
        ∧ (∀ j, j < 2 → ((exampleEnv guardThirdTime hsResidue 6).guard j).acquired = false)
        ∧ ((exampleEnv guardThirdTime hsResidue 6).guard 2).acquired = true
        ∧ (appender_ipc_open (exampleEnv guardThirdTime hsResidue 6)).trace.countP
            Event.isSemOpen = 2 + 1) :=
  ⟨⟨fun _ => by decide, by decide,
    ((guard_attempts_bounded (exampleEnv guardStuck hsResidue 6)).2.2
      (fun _ => by decide) (by decide)).1,
    ((guard_attempts_bounded (exampleEnv guardStuck hsResidue 6)).2.2
      (fun _ => by decide) (by decide)).2.1⟩,
   ⟨by decide, by decide, by decide, by decide,
    ((guard_attempts_bounded (exampleEnv guardThirdTime hsResidue 6)).2.1 2 (by decide)
      (by decide) (by decide) (by decide) (by decide)).1⟩⟩

theorem ownerBranch_creates (env : OpenEnv) (u : appender_ipc_udata_t) :
    Event.mq_open u.queueName OFlag.O_CREAT_O_RDONLY (some createAttr) env.openServer
      ∈ (ownerBranch env u).trace := by
  unfold ownerBranch
  by_cases h1 : env.openServer = -1
  · simp [h1]
  · by_cases h2 : env.openClient = -1
    · simp [h1, h2]
    · by_cases h3 : env.threadCreate = 0 <;> simp [h1, h2, h3]

theorem acquired_of_exists (env : OpenEnv) (h : ∃ k, k < 3 ∧ (env.guard k).acquired = true) :
    (acquireGuard (env.tokens 0) env.guard 3 0 SemPtr.null).bOK = true := by
  rcases first_acquired_or_none env.guard 3 with hall | ⟨k, hk, hlt, hacq⟩
  · obtain ⟨k, hk, hacq⟩ := h
    rw [hall k hk] at hacq
    cases hacq
  · exact (acquireGuard_first_success (env.tokens 0) env.guard k 3 0 SemPtr.null hk
      (fun j hj => by simpa using hlt j hj) (by simpa using hacq)).1

/-- C4: `master_handshake` returns 0, not -1, (a) when the shared channel
cannot be opened for sending, in which case its only calls are the failed
`mq_open` and the clean-up (no PING is sent, no handshake channel is created),
and (b) when the PING was sent but the timed receive on the handshake channel
returned -1; in both cases a run of `appender_ipc_open` whose names fit their
arrays and that holds the guard goes on to create the shared channel, that
is, takes the owner branch. -/
theorem handshake_absence_is_no_owner (env : OpenEnv) (pUserData : appender_ipc_udata_t)
    (habs : env.handshake.openShared = -1
      ∨ (env.handshake.openShared ≠ -1 ∧ env.handshake.openHshake ≠ -1
          ∧ env.handshake.sendPing = none ∧ env.handshake.recvPong = none)) :
    (master_handshake pUserData env.handshake).1 = 0
      ∧ (env.handshake.openShared = -1 →
          (master_handshake pUserData env.handshake).2
            = [Event.mq_open pUserData.queueName OFlag.O_WRONLY (some handshakeAttr) (-1),
               Event.mq_close (-1), Event.mq_close 0,
               Event.mq_unlink pUserData.queueNameHandShake])
      ∧ (env.numTokens = NUM_OF_NAME_TOKENS → env.namesFit = true →
          (∃ k, k < 3 ∧ (env.guard k).acquired = true) →
          Event.mq_open ("/" ++ env.tokens 0 ++ "_mqueue") OFlag.O_CREAT_O_RDONLY
              (some createAttr) env.openServer
            ∈ (appender_ipc_open env).trace) := by
  have hres : ∀ u : appender_ipc_udata_t, (master_handshake u env.handshake).1 = 0 := by
    intro u
    rcases habs with h | ⟨h1, h2, h3, h4⟩
    · simp [master_handshake, handshakeBody, h]
    · simp [master_handshake, handshakeBody, pingPong, h1, h2, h3, h4]
  refine ⟨hres pUserData, ?_, ?_⟩
  · intro h
    simp [master_handshake, handshakeBody, h]
  · intro htok _ hacq
    rw [open_trace_acquired env htok (acquired_of_exists env hacq)]
    apply List.mem_append_left
    apply List.mem_append_left
    apply List.mem_append_right
    simp only [criticalSection, List.mem_append]
    right
    rw [hres]
    simp only [afterHandshake]
    exact ownerBranch_creates env _

/-- Instances of C4: a missing shared channel, and a leftover channel nobody
drains; in the second run, whose names fit, `appender_ipc_open` creates the
shared channel. -/
theorem handshake_absence_is_no_owner_witness :
    (hsNoChannel.openShared = -1
        ∧ (master_handshake appender_ipc_make_udata hsNoChannel).1 = 0)
      ∧ ((hsResidue.openShared ≠ -1 ∧ hsResidue.openHshake ≠ -1
            ∧ hsResidue.sendPing = none ∧ hsResidue.recvPong = none)
        ∧ (exampleEnv guardFree hsResidue 6).namesFit = true
        ∧ (master_handshake appender_ipc_make_udata hsResidue).1 = 0
        ∧ Event.mq_open "/orders_mqueue" OFlag.O_CREAT_O_RDONLY (some createAttr) 5
            ∈ (appender_ipc_open (exampleEnv guardFree hsResidue 6)).trace) :=
  ⟨⟨by decide,
    (handshake_absence_is_no_owner (exampleEnv guardFree hsNoChannel 6) appender_ipc_make_udata
      (Or.inl (by decide))).1⟩,
   ⟨by decide, by decide,
    (handshake_absence_is_no_owner (exampleEnv guardFree hsResidue 6) appender_ipc_make_udata
      (Or.inr (by decide))).1,
    (handshake_absence_is_no_owner (exampleEnv guardFree hsResidue 6) appender_ipc_make_udata
      (Or.inr (by decide))).2.2 (by decide) (by decide) ⟨0, by decide, by decide⟩⟩⟩

/-! ## Runs on which the code departs from its documentation -/

/-- C5 (failing run): the shared channel is open but full, so the timed send
of PING on the blocking descriptor ends with `ETIMEDOUT`; `master_handshake`
returns -1 (not 0), and `appender_ipc_open` returns -1 without taking the
owner branch: the shared channel is never created and no handle is set. -/
theorem handshake_send_timeout_is_failure :
    (master_handshake appender_ipc_make_udata hsFullQueue).1 = -1
      ∧ (appender_ipc_open (exampleEnv guardFree hsFullQueue 6)).result = -1
      ∧ (appender_ipc_open (exampleEnv guardFree hsFullQueue 6)).udata = none
      ∧ (appender_ipc_open (exampleEnv guardFree hsFullQueue 6)).trace
          = [Event.sem_open "/orders_guard" 1 (SemPtr.ptr 1),
             Event.sem_timedwait (SemPtr.ptr 1) 4 0,
             Event.mq_open "/orders_mqueue" OFlag.O_WRONLY (some handshakeAttr) 3,
             Event.mq_unlink "/orders_mqueue_hshake",
             Event.mq_open "/orders_mqueue_hshake" OFlag.O_CREAT_O_RDONLY (some createAttr) 4,
             Event.mq_timedsend 3 PING_MESSAGE 1 (-1) (some Errno.ETIMEDOUT),
             Event.mq_close 3, Event.mq_close 4, Event.mq_unlink "/orders_mqueue_hshake",
             Event.sem_post (SemPtr.ptr 1), Event.sem_close (SemPtr.ptr 1),
             Event.sem_unlink "/orders_guard",
             Event.mq_close 0, Event.mq_close 0, Event.mq_unlink "/orders_mqueue"] := by
  decide

/-- On every input, a failed PING send is mapped to 0 only for `EAGAIN`; every
other error, `ETIMEDOUT` included, makes `master_handshake` return -1. -/
theorem handshake_send_failure_result (pUserData : appender_ipc_udata_t) (env : HandshakeEnv)
    (e : Errno) (h1 : env.openShared ≠ -1) (h2 : env.openHshake ≠ -1)
    (h3 : env.sendPing = some e) :
    (master_handshake pUserData env).1 = (if e = Errno.EAGAIN then 0 else -1) := by
  by_cases he : e = Errno.EAGAIN <;>
    simp [master_handshake, handshakeBody, pingPong, h1, h2, h3, he]

/-- C7 (failing run): the handshake finds a live owner, then the client-side
`mq_open` of the shared channel fails; `appender_ipc_open` still returns 0 and
leaves a handle whose `mqueueClient` is -1. -/
theorem open_client_branch_ignores_open_failure :
    (master_handshake appender_ipc_make_udata hsOwnerAlive).1 = 1
      ∧ (appender_ipc_open (exampleEnv guardFree hsOwnerAlive (-1))).result = 0
      ∧ (appender_ipc_open (exampleEnv guardFree hsOwnerAlive (-1))).udata
          = some { pumpThread := 0, mqueueServer := 0, mqueueClient := -1,
                   rollingFileCategory := none, rollingFileAppender := none,
                   queueName := "/orders_mqueue",
                   queueNameHandShake := "/orders_mqueue_hshake" }
      ∧ Event.mq_open "/orders_mqueue" OFlag.O_WRONLY none (-1)
          ∈ (appender_ipc_open (exampleEnv guardFree hsOwnerAlive (-1))).trace := by
  decide

/-- On every input on which the guard is acquired and the handshake returns 1,
`appender_ipc_open` returns 0 and the handle's `mqueueClient` is whatever
`mq_open` returned, `-1` included. -/
theorem open_client_branch_result (env : OpenEnv) (htok : env.numTokens = NUM_OF_NAME_TOKENS)
    (hacq : ∃ k, k < 3 ∧ (env.guard k).acquired = true)
    (hhs : ∀ u, (master_handshake u env.handshake).1 = 1) :
    (appender_ipc_open env).result = 0
      ∧ (appender_ipc_open env).udata.map (fun u => u.mqueueClient) = some env.openClient := by
  simp [appender_ipc_open, htok, acquired_of_exists env hacq, hhs, afterHandshake, clientBranch]

/-- In the owner branch the same failure is reported: the result is -1. -/
theorem open_owner_branch_reports_open_failure :
    (appender_ipc_open (exampleEnv guardFree hsResidue (-1))).result = -1 := by
  decide

/-- C8 (failing run): the handle produced by the client branch of
`appender_ipc_open` has `pumpThread` unset and `mqueueClient = 6`;
`appender_ipc_close` on it makes no call at all, so descriptor 6 is never
closed, whereas closing the owner handle does close its `mqueueClient`. -/
theorem close_client_handle_closes_nothing :
    (appender_ipc_open (exampleEnv guardFree hsOwnerAlive 6)).udata = some clientHandle
      ∧ appender_ipc_close clientHandle = (0, [])
      ∧ Event.mq_close clientHandle.mqueueClient ∉ (appender_ipc_close clientHandle).2
      ∧ Event.mq_close ownerHandle.mqueueClient ∈ (appender_ipc_close ownerHandle).2 := by
  decide

/-- On every handle with `pumpThread` unset `appender_ipc_close` makes no call. -/
theorem close_without_thread (pUserData : appender_ipc_udata_t)
    (h : pUserData.pumpThread = 0) : appender_ipc_close pUserData = (0, []) := by
  simp [appender_ipc_close, h]

theorem take_strlen : ∀ (msg : List Nat), msg.take (strlen msg) = cstr msg
  | [] => rfl
  | b :: rest => by
    by_cases hb : b = 0
    · simp [strlen, cstr, hb]
    · have := take_strlen rest
      simp only [strlen] at this
      simp [strlen, cstr, hb, this]

theorem strlen_longMessage : strlen longMessage = 1025 := by
  have h : (0 : Nat) ∉ List.replicate 1025 65 := by
    intro hm
    have := List.eq_of_mem_replicate hm
    omega
  unfold strlen longMessage
  rw [cstr_append_zero, cstr_of_not_mem h, List.length_replicate]

/-- A message longer than the queue's `mq_msgsize` is rejected. -/
theorem append_too_long (descriptors : Int → Option MQueue) (pUserData : appender_ipc_udata_t)
    (msg : List Nat) (q : MQueue) (hq : descriptors pUserData.mqueueClient = some q)
    (hlen : q.mq_msgsize < strlen msg) :
    appender_ipc_append descriptors pUserData msg = SendOutcome.failed Errno.EMSGSIZE := by
  simp [appender_ipc_append, mq_send, hq, hlen]

/-- A message that fits is enqueued unchanged, behind the waiting messages,
when the queue has room. -/
theorem append_fits (descriptors : Int → Option MQueue) (pUserData : appender_ipc_udata_t)
    (msg : List Nat) (q : MQueue) (hq : descriptors pUserData.mqueueClient = some q)
    (hlen : strlen msg ≤ q.mq_msgsize) (hroom : q.msgs.length < q.mq_maxmsg) :
    appender_ipc_append descriptors pUserData msg
      = SendOutcome.sent { q with msgs := q.msgs ++ [cstr msg] } := by
  simp [appender_ipc_append, mq_send, hq, Nat.not_lt.mpr hlen, Nat.not_le.mpr hroom, take_strlen]

/-- C6 (failing run): a rendered message of 1025 bytes is handed to `mq_send`
with `msg_len = 1025`; on the shared channel, created with
`mq_msgsize = MAX_MSG_SIZE`, the call fails with `EMSGSIZE`:
`appender_ipc_append` returns -1 and nothing is enqueued. -/
theorem append_long_message_fails :
    strlen longMessage = MAX_MSG_SIZE + 1
      ∧ exampleDescriptors clientHandle.mqueueClient = some (MQueue.create createAttr)
      ∧ (MQueue.create createAttr).mq_msgsize = MAX_MSG_SIZE
      ∧ appender_ipc_append exampleDescriptors clientHandle longMessage
          = SendOutcome.failed Errno.EMSGSIZE
      ∧ (appender_ipc_append exampleDescriptors clientHandle longMessage).ret = some (-1) := by
  have hq : exampleDescriptors clientHandle.mqueueClient = some (MQueue.create createAttr) := by
    decide
  have hlen : (MQueue.create createAttr).mq_msgsize < strlen longMessage := by
    rw [strlen_longMessage]; decide
  have h := append_too_long exampleDescriptors clientHandle longMessage _ hq hlen
  refine ⟨by rw [strlen_longMessage]; rfl, hq, rfl, h, by rw [h]; rfl⟩

/-- On every input on which the guard is acquired and the handshake returns -1,
`appender_ipc_open` returns -1 and its clean-up closes the two descriptors
stored in the user data, whatever they are, and unlinks the shared channel. -/
theorem failed_handshake_cleanup (env : OpenEnv) (htok : env.numTokens = NUM_OF_NAME_TOKENS)
    (hacq : ∃ k, k < 3 ∧ (env.guard k).acquired = true)
    (hfail : ∀ u, (master_handshake u env.handshake).1 = -1) :
    (appender_ipc_open env).result = -1
      ∧ finalCleanup env
          = [Event.mq_close (env.udata.getD appender_ipc_make_udata).mqueueServer,
             Event.mq_close (env.udata.getD appender_ipc_make_udata).mqueueClient,
             Event.mq_unlink ("/" ++ env.tokens 0 ++ "_mqueue")] := by
  have h7 : "_mqueue".length = 7 := by decide
  refine ⟨?_, ?_⟩
  · simp [appender_ipc_open, htok, acquired_of_exists env hacq, hfail, afterHandshake]
  · simp [finalCleanup, hfail, afterHandshake, cleanup, h7]

/-- C11 (failing run): the shared channel exists (it is opened as descriptor
3), the handshake channel cannot be created, so `master_handshake` returns -1
and `appender_ipc_open` returns -1 with the guard acquired.  The run creates
no queue and its only successful `mq_open` returned 3, yet its clean-up calls
`mq_close(0)` twice and `mq_unlink` on the shared channel; when the appender
already holds user data from an earlier open, the clean-up closes that
earlier descriptor 6. -/
theorem cleanup_after_failed_handshake_unlinks_channel :
    (master_handshake appender_ipc_make_udata hsNoHandshakeChannel).1 = -1
      ∧ (appender_ipc_open (exampleEnv guardFree hsNoHandshakeChannel 6)).result = -1
      ∧ (appender_ipc_open (exampleEnv guardFree hsNoHandshakeChannel 6)).trace.any
          Event.isAcquire = true
      ∧ createdQueues (appender_ipc_open (exampleEnv guardFree hsNoHandshakeChannel 6)).trace
          = []
      ∧ unlinkedQueues (appender_ipc_open (exampleEnv guardFree hsNoHandshakeChannel 6)).trace
          = ["/orders_mqueue_hshake", "/orders_mqueue_hshake", "/orders_mqueue"]
      ∧ openedDescriptors (appender_ipc_open (exampleEnv guardFree hsNoHandshakeChannel 6)).trace
          = [3]
      ∧ closedDescriptors (appender_ipc_open (exampleEnv guardFree hsNoHandshakeChannel 6)).trace
          = [3, -1, 0, 0]
      ∧ (appender_ipc_open reopenEnv).result = -1
      ∧ openedDescriptors (appender_ipc_open reopenEnv).trace = [3]
      ∧ closedDescriptors (appender_ipc_open reopenEnv).trace = [3, -1, 0, 6] := by
  decide

theorem PING_MESSAGE_sent : PING_MESSAGE.take (strlen PING_MESSAGE) = PING_MESSAGE := by
  rw [take_strlen, cstr_of_not_mem PING_MESSAGE_nul_free]

theorem PONG_MESSAGE_sent : PONG_MESSAGE.take (strlen PONG_MESSAGE) = PONG_MESSAGE := by
  rw [take_strlen, cstr_of_not_mem PONG_MESSAGE_nul_free]

/-- One iteration of the drain loop that dequeues PING and can open the
handshake channel: a receive, the open, one send of `PONG_MESSAGE`, the close;
nothing goes to the sink. -/
theorem pump_answers_ping (u : appender_ipc_udata_t) (buffer : List Nat) (s : PumpStep)
    (rest : List PumpStep) (hdeq : s.recv = some PING_MESSAGE) (hresp : s.openHshake ≠ -1) :
    (pump_from_queue_to_file u buffer (s :: rest)).trace
      = [Event.mq_receive u.mqueueServer MAX_MSG_SIZE PING_MESSAGE.length,
         Event.mq_open u.queueNameHandShake OFlag.O_WRONLY none s.openHshake,
         Event.mq_send s.openHshake PONG_MESSAGE s.sendPong,
         Event.mq_close s.openHshake]
        ++ (pump_from_queue_to_file u
              (terminate (storeMsg buffer PING_MESSAGE) PING_MESSAGE.length) rest).trace := by
  have h0 : strcmp PING_MESSAGE (terminate (storeMsg buffer PING_MESSAGE) PING_MESSAGE.length)
      = 0 := (strcmp_ping_received buffer PING_MESSAGE PING_MESSAGE_nul_free).mpr rfl
  simp only [pump_from_queue_to_file, hdeq]
  rw [if_neg (not_not.mpr h0)]
  simp [pumpReply, hresp, PONG_MESSAGE_sent]

/-- C12: the payload `master_handshake` sends with `strlen(PING_MESSAGE)` bytes
is the whole of `PING_MESSAGE`; an iteration of the drain loop that dequeues
it finds it equal to PING after NUL-termination and, when the handshake
channel can be opened, answers with exactly one send, of the whole of
`PONG_MESSAGE`, forwarding nothing to the sink; a handshake that receives that
reply returns 1.  Both messages fit a channel of `MAX_MSG_SIZE` bytes and
arrive unchanged; they are distinct, NUL-free and at most 1024 bytes long. -/
theorem handshake_halves_agree (owner prober : appender_ipc_udata_t) (buffer : List Nat)
    (s : PumpStep) (rest : List PumpStep) (env : HandshakeEnv)
    (hopen : env.openShared ≠ -1) (hcreate : env.openHshake ≠ -1)
    (hsent : env.sendPing = none)
    (hdeq : s.recv = some (PING_MESSAGE.take (strlen PING_MESSAGE)))
    (hresp : s.openHshake ≠ -1)
    (hreply : env.recvPong = some (PONG_MESSAGE.take (strlen PONG_MESSAGE))) :
    Event.mq_timedsend env.openShared PING_MESSAGE PING_PONG_TIMEOUT_S 0 none
        ∈ (master_handshake prober env).2
      ∧ strcmp PING_MESSAGE (terminate (storeMsg buffer PING_MESSAGE) PING_MESSAGE.length) = 0
      ∧ (pump_from_queue_to_file owner buffer (s :: rest)).trace
          = [Event.mq_receive owner.mqueueServer MAX_MSG_SIZE PING_MESSAGE.length,
             Event.mq_open owner.queueNameHandShake OFlag.O_WRONLY none s.openHshake,
             Event.mq_send s.openHshake PONG_MESSAGE s.sendPong,
             Event.mq_close s.openHshake]
            ++ (pump_from_queue_to_file owner
                  (terminate (storeMsg buffer PING_MESSAGE) PING_MESSAGE.length) rest).trace
      ∧ (master_handshake prober env).1 = 1
      ∧ (∀ q : MQueue, q.mq_msgsize = MAX_MSG_SIZE → q.msgs.length < q.mq_maxmsg →
          mq_send (some q) PING_MESSAGE (strlen PING_MESSAGE)
            = SendOutcome.sent { q with msgs := q.msgs ++ [PING_MESSAGE] })
      ∧ mq_send (some (MQueue.create createAttr)) PONG_MESSAGE (strlen PONG_MESSAGE)
          = SendOutcome.sent { MQueue.create createAttr with msgs := [PONG_MESSAGE] }
      ∧ PING_MESSAGE ≠ PONG_MESSAGE ∧ 0 ∉ PING_MESSAGE ∧ 0 ∉ PONG_MESSAGE
      ∧ PING_MESSAGE.length ≤ MAX_MSG_SIZE ∧ PONG_MESSAGE.length ≤ MAX_MSG_SIZE := by
  rw [PING_MESSAGE_sent] at hdeq
  rw [PONG_MESSAGE_sent] at hreply
  have hlenPing : strlen PING_MESSAGE = 81 := by decide
  have hlenPong : strlen PONG_MESSAGE = 81 := by decide
  refine ⟨?_, (strcmp_ping_received buffer PING_MESSAGE PING_MESSAGE_nul_free).mpr rfl,
    pump_answers_ping owner buffer s rest hdeq hresp, ?_, ?_, ?_, by decide,
    PING_MESSAGE_nul_free, PONG_MESSAGE_nul_free, by decide, by decide⟩
  · simp [master_handshake, handshakeBody, pingPong, hopen, hcreate, hsent, hreply,
      PING_MESSAGE_sent]
  · have hpp := (pingPong_result env.openShared env.openHshake env).1.mpr
      ⟨hsent, PONG_MESSAGE, hreply, cstr_of_not_mem PONG_MESSAGE_nul_free⟩
    simpa [master_handshake, handshakeBody, hopen, hcreate] using hpp
  · intro q hsize hroom
    have h1 : ¬ q.mq_msgsize < strlen PING_MESSAGE := by
      rw [hsize, hlenPing]; decide
    simp [mq_send, h1, Nat.not_le.mpr hroom, PING_MESSAGE_sent]
  · have h1 : ¬ (MQueue.create createAttr).mq_msgsize < strlen PONG_MESSAGE := by
      rw [hlenPong]; decide
    have h2 : ¬ (MQueue.create createAttr).mq_maxmsg ≤ (MQueue.create createAttr).msgs.length := by
      decide
    simp [mq_send, h1, h2, PONG_MESSAGE_sent]
    rfl

/-- Instance of C12: the prober of the example receives the reply the drain
loop of the example owner sends, and returns 1. -/
theorem handshake_halves_agree_witness :
    (hsOwnerAlive.openShared ≠ -1 ∧ hsOwnerAlive.openHshake ≠ -1
        ∧ hsOwnerAlive.sendPing = none
        ∧ pingStep.recv = some (PING_MESSAGE.take (strlen PING_MESSAGE))
        ∧ pingStep.openHshake ≠ -1
        ∧ hsOwnerAlive.recvPong = some (PONG_MESSAGE.take (strlen PONG_MESSAGE)))
      ∧ sentMessages (pump_from_queue_to_file ownerHandle uninitialised [pingStep]).trace
          = [PONG_MESSAGE]
      ∧ (master_handshake clientHandle hsOwnerAlive).1 = 1 :=
  ⟨by decide, by decide,
   (handshake_halves_agree ownerHandle clientHandle uninitialised pingStep [] hsOwnerAlive
      (by decide) (by decide) (by decide) (by decide) (by decide) (by decide)).2.2.2.1⟩

end Log4cIpc
